import Mathlib

/-!
# iam-proxy: token issuance and validation

A shallow embedding of `internal/service` (`jwt.go`, `service.go`, `init.go`),
`client/jwt/jwt.go`, `client/http/http.go`, `client/health/model.go` and the health
handler of `internal/api/http.go`.

Conventions of the embedding:

* Go strings are Lean `String`s, `[]byte` is `List Nat` (`Bytes`), `int64` instants and
  intervals are `Int` seconds (`time.Now().Unix()`); a Go result tuple `(v, error)` is a
  Lean tuple whose last component is `Option String`, the error message, `none` for `nil`.
* The clock (`time.Now`, the jwt package's `TimeFunc`) and the random source of
  `uuid.New()` are explicit arguments.
* `models.IAM`, a Go map, is an association list read with `List.lookup`.
* The service calls two external packages that are not part of the repository:
  `github.com/golang-jwt/jwt` (v3.2) and `github.com/google/uuid`. Their control flow is
  embedded in the namespaces `jwt` and `uuid` below; the primitives underneath them (base64url,
  `encoding/json`, the hash functions, `time.Duration` formatting) are the fields of `Lib`,
  and the only facts ever assumed about them are the round-trip laws `Lib.Lawful`.
* `encoding/base64` is embedded in full (namespace `base64`); the JSON text of the
  credentials is read and written by the fields of `Json`, under the laws `Json.Lawful`,
  and the assignments of the decoder to the Go map are embedded (`assignMembers`).
* `textproto.CanonicalMIMEHeaderKey` is the argument `canon` of the header functions.
-/

namespace IamProxy

/-- Go `[]byte`. -/
abbrev Bytes := List Nat

/-- `[]byte(s)`: the UTF-8 bytes of a string. -/
def utf8 (s : String) : Bytes :=
  s.data.flatMap fun c => (String.utf8EncodeChar c).map UInt8.toNat

/-! ## internal/models/iam.go -/

/-- `models.ClientID`. -/
abbrev ClientID := String

/-- `models.Secret` (the `ExpirationDate` field is never read by the service). -/
structure Secret where
  ClientSecret : String
  AppName : String
deriving DecidableEq, Repr

/-- `models.IAM`: `map[ClientID]Secret`. -/
abbrev IAM := List (ClientID × Secret)

/-! ## Primitives of the external packages -/

/-- The hash functions behind the HMAC signing methods. -/
inductive HashAlg where
  | SHA256
  | SHA384
  | SHA512
deriving DecidableEq, Repr

/-- `hash.Hash.BlockSize()`, in bytes. -/
def HashAlg.blockSize : HashAlg → Nat
  | .SHA256 => 64
  | .SHA384 => 128
  | .SHA512 => 128

/-- `jwt.StandardClaims`. A zero value stands for an absent claim (`omitempty`). -/
structure StandardClaims where
  Audience : String
  ExpiresAt : Int
  Id : String
  IssuedAt : Int
  Issuer : String
  NotBefore : Int
  Subject : String
deriving DecidableEq, Repr

/-- The primitives below the jwt package: standard-library encoders, decoders and hashes.
A decoder returns `Except.error msg` with the message of the Go error. -/
structure Lib where
  /-- `jwt.EncodeSegment`: base64url without padding. -/
  encodeSegment : Bytes → String
  /-- `jwt.DecodeSegment`. -/
  decodeSegment : String → Except String Bytes
  /-- `json.Marshal` of the header `map[string]interface{}` that `jwt.NewWithClaims` builds
  for the signing method named `alg`: the entries `typ = JWT` and `alg`. -/
  marshalHeader : String → Bytes
  /-- `json.Unmarshal` into `token.Header`, followed by the lookup `Header["alg"].(string)`:
  `ok none` when the header decodes and has no string under `alg`. -/
  headerAlg : Bytes → Except String (Option String)
  /-- `json.Marshal` of a `*jwt.StandardClaims`. -/
  marshalClaims : StandardClaims → Bytes
  /-- `json.Decoder.Decode` into a `*jwt.StandardClaims`. -/
  unmarshalClaims : Bytes → Except String StandardClaims
  /-- `crypto.Hash.New` followed by `Write` and `Sum(nil)`. -/
  hash : HashAlg → Bytes → Bytes
  /-- The names under which a signing method other than the three HMAC methods is
  registered (`jwt.RegisterSigningMethod`): the RSA, RSA-PSS, ECDSA, EdDSA and none methods. -/
  registered : String → Bool
  /-- `Verify` of a registered method that is not an HMAC method, on
  (alg, signing string, signature, key): the error message, `none` for `nil`. -/
  otherVerify : String → String → String → Bytes → Option String
  /-- `time.Duration.String` of a number of seconds. -/
  durationString : Int → String
  /-- The message of the error `ParseUnverified` returns when the header segment is not
  base64url: the decoder's message, or the library's remark on a `bearer ` prefix. -/
  headerSegmentError : String → String → String

/-- What the standard library guarantees about the primitives: decoding undoes encoding
and an encoded segment holds no dot. -/
structure Lib.Lawful (L : Lib) : Prop where
  decode_encode : ∀ b : Bytes, L.decodeSegment (L.encodeSegment b) = .ok b
  encode_no_dot : ∀ b : Bytes, '.' ∉ (L.encodeSegment b).data
  headerAlg_marshal : ∀ alg : String, L.headerAlg (L.marshalHeader alg) = .ok (some alg)
  unmarshal_marshal : ∀ c : StandardClaims, L.unmarshalClaims (L.marshalClaims c) = .ok c

/-! ## crypto/hmac -/

/-- The key block of `hmac.New`: a key longer than the block is hashed first, then the key
is copied into a zeroed block. -/
def hmacKeyBlock (L : Lib) (h : HashAlg) (key : Bytes) : Bytes :=
  let k := if key.length > h.blockSize then L.hash h key else key
  (k ++ List.replicate (h.blockSize - k.length) 0).take h.blockSize

/-- `hmac.New(h, key)`, `Write(msg)`, `Sum(nil)`. -/
def hmacSum (L : Lib) (h : HashAlg) (key msg : Bytes) : Bytes :=
  let block := hmacKeyBlock L h key
  L.hash h (block.map (fun b => b ^^^ 0x5c) ++ L.hash h (block.map (fun b => b ^^^ 0x36) ++ msg))

/-! ## strings -/

/-- The pieces of a character list between the occurrences of `sep`. -/
def splitChars (sep : Char) : List Char → List (List Char)
  | [] => [[]]
  | c :: cs =>
    if c = sep then [] :: splitChars sep cs
    else
      match splitChars sep cs with
      | [] => [[c]]
      | p :: ps => (c :: p) :: ps

/-- `strings.Split(s, ".")`. -/
def splitDot (s : String) : List String :=
  (splitChars '.' s.data).map String.mk

/-! ## github.com/google/uuid -/

namespace uuid

/-- The sixteen bytes of `uuid.NewRandom()`: the random bytes `r` with the version (4) and
variant (RFC 4122) bits set. -/
def NewRandom (r : Bytes) : Bytes :=
  (List.range 16).map fun i =>
    let b := r.getD i 0 % 256
    if i = 6 then b % 16 + 64 else if i = 8 then b % 64 + 128 else b

/-- One lower-case hexadecimal digit. -/
def hexDigit (n : Nat) : Char :=
  "0123456789abcdef".data.getD (n % 16) '0'

/-- `hex.Encode` of a byte slice. -/
def hexBytes (bs : Bytes) : List Char :=
  bs.flatMap fun b => [hexDigit (b / 16), hexDigit b]

/-- `UUID.String()`: the form xxxxxxxx-xxxx-xxxx-xxxx-xxxxxxxxxxxx. -/
def String (u : Bytes) : String :=
  String.mk (hexBytes (u.take 4) ++ '-' :: hexBytes ((u.drop 4).take 2) ++ '-' ::
    hexBytes ((u.drop 6).take 2) ++ '-' :: hexBytes ((u.drop 8).take 2) ++ '-' ::
    hexBytes ((u.drop 10).take 6))

end uuid

/-! ## github.com/golang-jwt/jwt -/

namespace jwt

/-- A registered signing method: one of the three `*SigningMethodHMAC` values, or a method
of another type, known by its name. -/
inductive SigningMethod where
  | HMAC (h : HashAlg)
  | other (name : String)
deriving DecidableEq, Repr

/-- `SigningMethod.Alg()`. -/
def SigningMethod.Alg : SigningMethod → String
  | .HMAC .SHA256 => "HS256"
  | .HMAC .SHA384 => "HS384"
  | .HMAC .SHA512 => "HS512"
  | .other name => name

/-- `jwt.GetSigningMethod`. -/
def GetSigningMethod (L : Lib) (alg : String) : Option SigningMethod :=
  if alg = "HS256" then some (.HMAC .SHA256)
  else if alg = "HS384" then some (.HMAC .SHA384)
  else if alg = "HS512" then some (.HMAC .SHA512)
  else if L.registered alg then some (.other alg)
  else none

/-- The bits of `ValidationError.Errors`. -/
def ValidationErrorMalformed : Nat := 1
def ValidationErrorUnverifiable : Nat := 2
def ValidationErrorSignatureInvalid : Nat := 4
def ValidationErrorExpired : Nat := 16
def ValidationErrorIssuedAt : Nat := 32
def ValidationErrorNotValidYet : Nat := 128

/-- `jwt.ValidationError`. -/
structure ValidationError where
  Inner : Option String
  text : String
  Errors : Nat
deriving DecidableEq, Repr

/-- `ValidationError.Error()`. -/
def ValidationError.Error (e : ValidationError) : String :=
  match e.Inner with
  | some m => m
  | none => if e.text ≠ "" then e.text else "token is invalid"

/-- `jwt.NewValidationError`. -/
def NewValidationError (errorText : String) (errorFlags : Nat) : ValidationError :=
  ⟨none, errorText, errorFlags⟩

/-- `jwt.Token` (of the header only the `alg` entry is kept). -/
structure Token where
  Raw : String
  Method : SigningMethod
  Claims : StandardClaims
  Signature : String
  Valid : Bool
deriving DecidableEq, Repr

/-- `SigningMethodHMAC.Sign` with a `[]byte` key; it has no error path for such a key. -/
def signHMAC (L : Lib) (h : HashAlg) (signingString : String) (key : Bytes) : String :=
  L.encodeSegment (hmacSum L h key (utf8 signingString))

/-- `SigningMethodHMAC.Verify` with a `[]byte` key: the error message, `none` for `nil`. -/
def verifyHMAC (L : Lib) (h : HashAlg) (signingString signature : String) (key : Bytes) :
    Option String :=
  match L.decodeSegment signature with
  | .error e => some e
  | .ok sig =>
    if sig ≠ hmacSum L h key (utf8 signingString) then some "signature is invalid" else none

/-- `SigningMethod.Verify`. -/
def SigningMethod.Verify (L : Lib) (m : SigningMethod) (signingString signature : String)
    (key : Bytes) : Option String :=
  match m with
  | .HMAC h => verifyHMAC L h signingString signature key
  | .other name => L.otherVerify name signingString signature key

/-- `Token.SigningString()`. -/
def SigningString (L : Lib) (m : SigningMethod) (claims : StandardClaims) : String :=
  L.encodeSegment (L.marshalHeader m.Alg) ++ "." ++ L.encodeSegment (L.marshalClaims claims)

/-- `jwt.NewWithClaims(jwt.SigningMethodHS…, claims).SignedString(key)` for an HMAC method
and a `[]byte` key: marshalling the header and the claims and signing cannot fail, the
error returned is always `nil`. -/
def SignedString (L : Lib) (h : HashAlg) (claims : StandardClaims) (key : Bytes) :
    String × Option String :=
  let sstr := SigningString L (.HMAC h) claims
  (sstr ++ "." ++ signHMAC L h sstr key, none)

/-- `c.VerifyExpiresAt(now, required)`. -/
def verifyExp (exp now : Int) (required : Bool) : Bool :=
  if exp = 0 then !required else decide (now ≤ exp)

/-- `c.VerifyIssuedAt(now, required)`. -/
def verifyIat (iat now : Int) (required : Bool) : Bool :=
  if iat = 0 then !required else decide (now ≥ iat)

/-- `c.VerifyNotBefore(now, required)`. -/
def verifyNbf (nbf now : Int) (required : Bool) : Bool :=
  if nbf = 0 then !required else decide (now ≥ nbf)

/-- The `vErr` that `StandardClaims.Valid()` accumulates at the clock instant `now`: each
failed check overwrites `Inner` and adds its bit. -/
def validationError (L : Lib) (c : StandardClaims) (now : Int) : ValidationError :=
  let v0 : ValidationError := ⟨none, "", 0⟩
  let v1 : ValidationError :=
    if verifyExp c.ExpiresAt now false = false then
      ⟨some ("token is expired by " ++ L.durationString (now - c.ExpiresAt)), v0.text,
        v0.Errors ||| ValidationErrorExpired⟩
    else v0
  let v2 : ValidationError :=
    if verifyIat c.IssuedAt now false = false then
      ⟨some "Token used before issued", v1.text, v1.Errors ||| ValidationErrorIssuedAt⟩
    else v1
  if verifyNbf c.NotBefore now false = false then
    ⟨some "token is not valid yet", v2.text, v2.Errors ||| ValidationErrorNotValidYet⟩
  else v2

/-- `StandardClaims.Valid()` at the clock instant `now`: `none` for `nil`. -/
def Valid (L : Lib) (c : StandardClaims) (now : Int) : Option ValidationError :=
  if (validationError L c now).Errors = 0 then none else some (validationError L c now)

/-- `Parser.ParseUnverified` into a `*StandardClaims`: the token and its segments, or the
error. -/
def ParseUnverified (L : Lib) (tokenString : String) :
    Except ValidationError (Token × List String) :=
  match splitDot tokenString with
  | [p0, p1, p2] =>
    match L.decodeSegment p0 with
    | .error e => .error ⟨some (L.headerSegmentError tokenString e), "", ValidationErrorMalformed⟩
    | .ok headerBytes =>
      match L.headerAlg headerBytes with
      | .error e => .error ⟨some e, "", ValidationErrorMalformed⟩
      | .ok alg =>
        match L.decodeSegment p1 with
        | .error e => .error ⟨some e, "", ValidationErrorMalformed⟩
        | .ok claimBytes =>
          match L.unmarshalClaims claimBytes with
          | .error e => .error ⟨some e, "", ValidationErrorMalformed⟩
          | .ok claims =>
            match alg with
            | some method =>
              match GetSigningMethod L method with
              | none =>
                .error (NewValidationError "signing method (alg) is unavailable."
                  ValidationErrorUnverifiable)
              | some m => .ok (⟨tokenString, m, claims, "", false⟩, [p0, p1, p2])
            | none =>
              .error (NewValidationError "signing method (alg) is unspecified."
                ValidationErrorUnverifiable)
  | _ =>
    .error (NewValidationError "token contains an invalid number of segments"
      ValidationErrorMalformed)

/-- `jwt.ParseWithClaims(tokenString, &jwt.StandardClaims{}, keyFunc)` at the clock instant
`now`. The key function returns the key or the message of its error. -/
def ParseWithClaims (L : Lib) (now : Int) (tokenString : String)
    (keyFunc : Token → Except String Bytes) : Except ValidationError Token :=
  match ParseUnverified L tokenString with
  | .error e => .error e
  | .ok (token, parts) =>
    match keyFunc token with
    | .error e => .error ⟨some e, "", ValidationErrorUnverifiable⟩
    | .ok key =>
      let vErr : ValidationError :=
        match Valid L token.Claims now with
        | some e => e
        | none => ⟨none, "", 0⟩
      let signature := parts.getD 2 ""
      let vErr : ValidationError :=
        match token.Method.Verify L (".".intercalate (parts.take 2)) signature key with
        | some e => ⟨some e, vErr.text, vErr.Errors ||| ValidationErrorSignatureInvalid⟩
        | none => vErr
      if vErr.Errors = 0 then .ok { token with Signature := signature, Valid := true }
      else .error vErr

end jwt

/-! ## internal/service/service.go -/

/-- The type `Service`: the registry and the signing secret (the embedded `Config` is not
read after construction). -/
structure Service where
  IAM : IAM
  secret : Bytes
deriving DecidableEq, Repr

/-! ## internal/service/jwt.go -/

def issuer : String := "iam-proxy"
def invalidTokenError : String := "token is invalid"
def invalidIssuer : String := "issuer is invalid"
def parseTokenError : String := "could not parse token"
/-- `1 * time.Hour`, in seconds. -/
def expirationInterval : Int := 3600

/-- The method `verifyUser` checks the iam privileges for the given client id and secret. -/
def Service.verifyUser (s : Service) (clientID clientSecret : String) : String × Option String :=
  if clientID.length = 0 then ("", some "no client Id provided")
  else if clientSecret.length = 0 then ("", some "no client secret provided")
  else
    match s.IAM.lookup clientID with
    | none => ("", some "client id does not exist")
    | some entry =>
      if entry.ClientSecret ≠ clientSecret then ("", some "client secret does not match")
      else (entry.AppName, none)

/-- The method `createToken`. -/
def Service.createToken (L : Lib) (s : Service) (claims : StandardClaims) :
    String × Option String :=
  match jwt.SignedString L .SHA512 claims s.secret with
  | (_, some err) => ("", some ("could not generate token: " ++ err))
  | (tokenString, none) => (tokenString, none)

/-- The claims of the access token: id, expiry and issuer. -/
def accessClaims (now : Int) (random : Bytes) : StandardClaims :=
  ⟨"", now + expirationInterval, uuid.String (uuid.NewRandom random), 0, issuer, 0, ""⟩

/-- The claims of the identity token: issuer and subject. -/
def identityClaims (appName : String) : StandardClaims :=
  ⟨"", 0, "", 0, issuer, 0, appName⟩

/-- The method `GenerateToken` generates a secret token for the provided app, at the clock
instant `now` and with the random bytes `random` for the token id. -/
def Service.GenerateToken (L : Lib) (s : Service) (now : Int) (random : Bytes)
    (clientID clientSecret : String) : String × String × Int × Option String :=
  match s.verifyUser clientID clientSecret with
  | (_, some err) => ("", "", 0, some ("user not authorized to use iam service: " ++ err))
  | (appName, none) =>
    match s.createToken L (accessClaims now random) with
    | (_, some err) =>
      ("", "", 0, some ("could not generate access token for " ++ appName ++ ": " ++ err))
    | (accessToken, none) =>
      match s.createToken L (identityClaims appName) with
      | (_, some err) =>
        ("", "", 0, some ("could not generate identity token for " ++ appName ++ ": " ++ err))
      | (identityToken, none) => (accessToken, identityToken, expirationInterval, none)

/-- The key function `ParseToken` hands to the parser: the secret for an HMAC method, an
error for every other method. -/
def Service.keyFunc (s : Service) (token : jwt.Token) : Except String Bytes :=
  match token.Method with
  | .HMAC _ => .ok s.secret
  | .other name => .error ("unexpected signing method: " ++ name)

/-- The method `ParseToken` parses the token and confirms its validity, at the clock
instant `now`. -/
def Service.ParseToken (L : Lib) (s : Service) (now : Int) (tokenString : String) :
    String × Option String :=
  match jwt.ParseWithClaims L now tokenString s.keyFunc with
  | .error err => ("", some (parseTokenError ++ ": " ++ err.Error))
  | .ok token =>
    if token.Valid then
      if token.Claims.Issuer ≠ issuer then ("", some invalidIssuer)
      else (token.Claims.Subject, none)
    else ("", some invalidTokenError)

/-! ## Tokens signed with a given key -/

/-- The claims of a token that is correctly signed with `key` under an HMAC method: the
token has three segments, header and claims decode, the header names an HMAC method and
the signature segment is the MAC of the first two segments under `key`. Every other
string gives `none`. -/
def jwt.signedClaims (L : Lib) (key : Bytes) (tokenString : String) : Option StandardClaims :=
  match jwt.ParseUnverified L tokenString with
  | .error _ => none
  | .ok (token, parts) =>
    match token.Method with
    | .other _ => none
    | .HMAC h =>
      match jwt.verifyHMAC L h (".".intercalate (parts.take 2)) (parts.getD 2 "") key with
      | some _ => none
      | none => some token.Claims

/-- The signing method that the header of a token declares: the string under `alg` of the
decoded first segment of a token with three segments. -/
def jwt.declaredAlg (L : Lib) (tokenString : String) : Option String :=
  match splitDot tokenString with
  | [p0, _, _] =>
    match L.decodeSegment p0 with
    | .error _ => none
    | .ok headerBytes =>
      match L.headerAlg headerBytes with
      | .error _ => none
      | .ok alg => alg
  | _ => none

/-! ## A reference instance of the primitives

A small concrete codec with the shape of the real one (segments without dots, claims
and header decodable again); it shows that the laws `Lib.Lawful` can be met. -/

namespace Ref

/-- The character of a decimal digit. -/
def digitChar (d : Nat) : Char :=
  Char.ofNat (48 + d)

/-- A segment in decimal: the digits of every number, lowest first, closed by a semicolon. -/
def encodeSegment (bs : Bytes) : String :=
  String.mk (bs.flatMap fun n => (Nat.digits 10 n).map digitChar ++ [';'])

/-- Reads a decimal segment back: `ds` holds the digits read since the last semicolon. -/
def decodeDecimal : List Char → List Nat → Bytes
  | [], _ => []
  | c :: cs, ds =>
    if c = ';' then Nat.ofDigits 10 ds :: decodeDecimal cs []
    else decodeDecimal cs (ds ++ [c.toNat - 48])

def decodeSegment (s : String) : Except String Bytes :=
  .ok (decodeDecimal s.data [])

/-- A string field: its length, then its characters. -/
def putString (s : String) : Bytes :=
  s.length :: s.data.map Char.toNat

/-- An integer field: the sign, then the magnitude. -/
def putInt (i : Int) : Bytes :=
  [if i < 0 then 1 else 0, i.natAbs]

def getString : Bytes → Option (String × Bytes)
  | [] => none
  | n :: rest =>
    if n ≤ rest.length then some (String.mk ((rest.take n).map Char.ofNat), rest.drop n)
    else none

def getInt : Bytes → Option (Int × Bytes)
  | sign :: magnitude :: rest =>
    some (if sign = 1 then -(magnitude : Int) else (magnitude : Int), rest)
  | _ => none

def marshalClaims (c : StandardClaims) : Bytes :=
  putString c.Audience ++ (putInt c.ExpiresAt ++ (putString c.Id ++ (putInt c.IssuedAt ++
    (putString c.Issuer ++ (putInt c.NotBefore ++ putString c.Subject)))))

def unmarshalClaims (b : Bytes) : Except String StandardClaims :=
  let parsed : Option StandardClaims := do
    let (aud, b) ← getString b
    let (exp, b) ← getInt b
    let (jti, b) ← getString b
    let (iat, b) ← getInt b
    let (iss, b) ← getString b
    let (nbf, b) ← getInt b
    let (sub, _) ← getString b
    pure ⟨aud, exp, jti, iat, iss, nbf, sub⟩
  match parsed with
  | some c => .ok c
  | none => .error "unexpected end of JSON input"

def headerAlg (b : Bytes) : Except String (Option String) :=
  match getString b with
  | some (alg, _) => .ok (some alg)
  | none => .ok none

/-- The identity in the place of the hash functions: a MAC under it shows its key block. -/
def hash (_ : HashAlg) (b : Bytes) : Bytes := b

/-- The reference primitives. -/
def lib : Lib where
  encodeSegment := encodeSegment
  decodeSegment := decodeSegment
  marshalHeader := putString
  headerAlg := headerAlg
  marshalClaims := marshalClaims
  unmarshalClaims := unmarshalClaims
  hash := hash
  registered := fun alg => decide (alg ∈ ["RS256", "RS384", "RS512", "ES256", "ES384", "ES512",
    "PS256", "PS384", "PS512", "EdDSA", "none"])
  otherVerify := fun _ _ _ _ => some "key is of invalid type"
  durationString := fun d => toString d ++ "s"
  headerSegmentError := fun _ e => e

end Ref

/-! ## The example of the specification

Registry `c1 ↦ (s1, A)` and signing secret `k`. -/

namespace Example

def registry : IAM := [("c1", ⟨"s1", "A"⟩)]

/-- The service of the example: the secret is the one byte of `k`. -/
def service : Service := ⟨registry, [107]⟩

/-- The same registry under the secret `k` followed by a zero byte. -/
def paddedService : Service := ⟨registry, [107, 0]⟩

/-- Claims with an expiry in the past and a not-before instant in the future (at the
clock instant 10). -/
def expiredNotYetValid : StandardClaims := ⟨"", 5, "", 0, "iam-proxy", 100, ""⟩

/-- Claims without expiry, with a foreign issuer and a not-before instant in the future (at the
clock instant 10). -/
def foreignNotYetValid : StandardClaims := ⟨"", 0, "", 0, "other-issuer", 100, ""⟩

/-- Claims with an expiry in the past and nothing else but the issuer. -/
def expired : StandardClaims := ⟨"", 5, "", 0, "iam-proxy", 0, ""⟩

/-- Claims with a foreign issuer and an expiry in the future. -/
def foreign : StandardClaims := ⟨"", 5000, "", 0, "other-issuer", 0, ""⟩

/-- The same registry under another secret, the one byte of `l`. -/
def otherService : Service := ⟨registry, [108]⟩

/-- The claims `expiredNotYetValid` signed with the secret of `service`. -/
def expiredNotYetValidToken : String :=
  (jwt.SignedString Ref.lib .SHA512 expiredNotYetValid service.secret).1

/-- The claims `foreignNotYetValid` signed with the secret of `service`. -/
def foreignNotYetValidToken : String :=
  (jwt.SignedString Ref.lib .SHA512 foreignNotYetValid service.secret).1

/-- The claims `expired` signed with the secret of `service` under HS256. -/
def expiredToken : String :=
  (jwt.SignedString Ref.lib .SHA256 expired service.secret).1

/-- The claims `foreign` signed with the secret of `service` under HS256. -/
def foreignToken : String :=
  (jwt.SignedString Ref.lib .SHA256 foreign service.secret).1

/-- An identity token of the service whose header was replaced by one that declares the
method `none`: the payload and the signature are those of the genuine token of the app `A`. -/
def substitutedToken : String :=
  Ref.lib.encodeSegment (Ref.lib.marshalHeader "none") ++ "." ++
    Ref.lib.encodeSegment (Ref.lib.marshalClaims (identityClaims "A")) ++ "." ++
    jwt.signHMAC Ref.lib .SHA512 (jwt.SigningString Ref.lib (.HMAC .SHA512) (identityClaims "A"))
      service.secret

end Example

/-! ## encoding/base64 -/

namespace base64

/-- The alphabet of `base64.StdEncoding`. -/
def encodeStd : String := "ABCDEFGHIJKLMNOPQRSTUVWXYZabcdefghijklmnopqrstuvwxyz0123456789+/"

/-- The alphabet of `base64.URLEncoding`. -/
def encodeURL : String := "ABCDEFGHIJKLMNOPQRSTUVWXYZabcdefghijklmnopqrstuvwxyz0123456789-_"

/-- The table `enc.encode`, read at a six-bit index. -/
def encodeChar (alphabet : String) (i : Nat) : Char :=
  alphabet.data.getD (i % 64) 'A'

/-- The table `enc.decodeMap`: the six bits of a character of the alphabet, `none` (0xff) for
every other character. -/
def decodeChar (alphabet : String) (c : Char) : Option Nat :=
  if alphabet.data.indexOf c < 64 then some (alphabet.data.indexOf c) else none

/-- `Encoding.Encode` without padding: three bytes give four characters, a rest of one byte
two and a rest of two bytes three. -/
def encode (alphabet : String) : Bytes → List Char
  | [] => []
  | [a] =>
    let val := a * 65536
    [encodeChar alphabet (val / 262144 % 64), encodeChar alphabet (val / 4096 % 64)]
  | [a, b] =>
    let val := a * 65536 + b * 256
    [encodeChar alphabet (val / 262144 % 64), encodeChar alphabet (val / 4096 % 64),
      encodeChar alphabet (val / 64 % 64)]
  | a :: b :: c :: rest =>
    let val := a * 65536 + b * 256 + c
    encodeChar alphabet (val / 262144 % 64) :: encodeChar alphabet (val / 4096 % 64) ::
      encodeChar alphabet (val / 64 % 64) :: encodeChar alphabet (val % 64) ::
      encode alphabet rest

/-- The bytes of a quantum of `dlen` six-bit values, as `decodeQuantum` stores them (not in
strict mode: the unused low bits are dropped unchecked). -/
def quantumBytes : List Nat → Bytes
  | [d0, d1, d2, d3] =>
    let val := d0 * 262144 + d1 * 4096 + d2 * 64 + d3
    [val / 65536 % 256, val / 256 % 256, val % 256]
  | [d0, d1, d2] =>
    let val := d0 * 262144 + d1 * 4096 + d2 * 64
    [val / 65536 % 256, val / 256 % 256]
  | [d0, d1] =>
    let val := d0 * 262144 + d1 * 4096
    [val / 65536 % 256]
  | _ => []

/-- The message of a `base64.CorruptInputError`. -/
def corruptInput (offset : Nat) : String :=
  "illegal base64 data at input byte " ++ toString offset

/-- `Encoding.Decode` without padding, from the input offset `si` with the six-bit values
`q` of the quantum under way: line breaks are skipped, every other character outside the
alphabet is an error, and so is an input that ends one character into a quantum. -/
def decode (alphabet : String) : List Char → Nat → List Nat → Except String Bytes
  | [], si, q =>
    if q.length = 1 then .error (corruptInput (si - 1)) else .ok (quantumBytes q)
  | c :: cs, si, q =>
    match decodeChar alphabet c with
    | some d =>
      if q.length = 3 then
        match decode alphabet cs (si + 1) [] with
        | .error e => .error e
        | .ok rest => .ok (quantumBytes (q ++ [d]) ++ rest)
      else decode alphabet cs (si + 1) (q ++ [d])
    | none =>
      if c = '\n' ∨ c = '\r' then decode alphabet cs (si + 1) q
      else .error (corruptInput si)

/-- `base64.RawStdEncoding.EncodeToString`. -/
def RawStdEncoding_EncodeToString (src : Bytes) : String :=
  String.mk (encode encodeStd src)

/-- `base64.RawStdEncoding.DecodeString`; on an error the bytes decoded so far, which Go
returns as well, are left out. -/
def RawStdEncoding_DecodeString (s : String) : Except String Bytes :=
  decode encodeStd s.data 0 []

/-- `strings.TrimRight(base64.URLEncoding.EncodeToString(seg), "=")`, the body of
`jwt.EncodeSegment`. -/
def RawURLEncoding_EncodeToString (src : Bytes) : String :=
  String.mk (encode encodeURL src)

end base64

/-! ## client/jwt/jwt.go -/

/-- `Base64Encode` encodes a byte array to a base 64 string. -/
def Base64Encode (bb : Bytes) : String :=
  base64.RawStdEncoding_EncodeToString bb

/-- `Base64Decode` decodes a base 64 string to a byte array. -/
def Base64Decode (s : String) : Except String Bytes :=
  base64.RawStdEncoding_DecodeString s

/-- `DecodeToken` decodes the non-secret part of the jwt token and extracts the associated
claims; `unmarshalClaims` stands for `json.Unmarshal` into a `*jwt.StandardClaims`. -/
def DecodeToken (unmarshalClaims : Bytes → Except String StandardClaims) (token : String) :
    Option StandardClaims × Option String :=
  let s := splitDot token
  if s.length < 2 then (none, some "token format is wrong")
  else
    match base64.RawStdEncoding_DecodeString (s.getD 1 "") with
    | .error _ => (none, some "could not decode token part")
    | .ok b =>
      match unmarshalClaims b with
      | .error _ => (none, some "could not unmarshal claims")
      | .ok m => (some m, none)

/-! ## client/http/http.go -/

namespace clienthttp

/-- `http.Header`, a Go map from canonical header names to their values. -/
abbrev Header := List (String × List String)

/-- `http.Request`: only the header is kept; `none` is the nil map. -/
structure Request where
  Header : Option Header
deriving DecidableEq, Repr

/-- `Header.Set`, with `canon` for `textproto.CanonicalMIMEHeaderKey`. -/
def Header.Set (canon : String → String) (h : Header) (key value : String) : Header :=
  (canon key, [value]) :: h.filter fun e => e.1 ≠ canon key

/-- `Header.Get`, which also reads a nil map: the first value under the canonical name, or
the empty string. -/
def Header.Get (canon : String → String) (h : Option Header) (key : String) : String :=
  match h with
  | none => ""
  | some entries =>
    match entries.lookup (canon key) with
    | some (v :: _) => v
    | _ => ""

/-- `AuthorizationHeaderKey` is the authorization header key. -/
def AuthorizationHeaderKey : String := "Authorization"

/-- `IdentityHeaderKey` is the identity header key. -/
def IdentityHeaderKey : String := "Identity"

/-- The function `insertToken`: the request after the header was set. -/
def insertToken (canon : String → String) (r : Request) (key token : String) : Request :=
  let header : Header :=
    match r.Header with
    | none => []
    | some h => h
  ⟨some (Header.Set canon header key (key ++ " " ++ token))⟩

/-- `InsertAccessToken` inserts the access token correctly formatted into the request
header. -/
def InsertAccessToken (canon : String → String) (r : Request) (token : String) : Request :=
  insertToken canon r AuthorizationHeaderKey token

/-- `InsertIdentityToken` inserts the identity token correctly formatted into the request
header. -/
def InsertIdentityToken (canon : String → String) (r : Request) (token : String) : Request :=
  insertToken canon r IdentityHeaderKey token

/-- `strings.Split(s, " ")`. -/
def splitSpace (s : String) : List String :=
  (splitChars ' ' s.data).map String.mk

/-- The function `extractToken`. -/
def extractToken (canon : String → String) (r : Request) (key : String) :
    String × Option String :=
  let bearToken := Header.Get canon r.Header key
  if bearToken.length = 0 then ("", some "token not present in header")
  else
    let strArr := splitSpace bearToken
    if strArr.length = 2 then (strArr.getD 1 "", none)
    else ("", some "bad header format")

/-- `ExtractAccessToken` extracts the access token from the request header. -/
def ExtractAccessToken (canon : String → String) (r : Request) : String × Option String :=
  extractToken canon r AuthorizationHeaderKey

/-- `ExtractIdentityToken` extracts the identity token from the request header. -/
def ExtractIdentityToken (canon : String → String) (r : Request) : String × Option String :=
  extractToken canon r IdentityHeaderKey

end clienthttp

/-! ## client/health/model.go -/

namespace health

/-- The type `Status`, a string. -/
abbrev Status := String

def StatusAlive : Status := "Alive"
def StatusDegraded : Status := "Degraded"
def StatusUnavailable : Status := "Unavailable"

/-- The type `Health` of the service. -/
structure Health where
  Status : Status
  IAM : String
deriving DecidableEq, Repr

end health

/-! ## internal/service/service.go: health and readiness -/

/-- `Health` performs health checks and returns the health of the service. -/
def Service.Health (s : Service) : health.Health × Option String :=
  if s.IAM.length = 0 then (⟨health.StatusUnavailable, "No client credentials available"⟩, none)
  else if s.secret.length = 0 then (⟨health.StatusDegraded, "insecure secret"⟩, none)
  else (⟨health.StatusAlive, ""⟩, none)

/-- `Ready` returns a non-nil response if the service is not ready to receive requests. -/
def Service.Ready (_ : Service) : Option String :=
  none

/-! ## internal/service/init.go -/

/-- The two fields of `models.Secret` with a JSON name. -/
inductive SecretField where
  | client_secret
  | app_name
deriving DecidableEq, Repr

/-- A member of the JSON object of the credentials: the client id and the string fields of
its value, in the order of the document. -/
abbrev Member := String × List (SecretField × String)

/-- The member `json.Marshal` writes for an entry of the registry. -/
def memberOf (e : ClientID × Secret) : Member :=
  (e.1, [(.client_secret, e.2.ClientSecret), (.app_name, e.2.AppName)])

/-- The part of `encoding/json` that reads and writes the text of the credentials. -/
structure Json where
  /-- `json.Marshal` of a `models.IAM`. -/
  marshalIAM : IAM → Bytes
  /-- The reading half of `json.Unmarshal` into a `*models.IAM`: the members of the object
  in the order of the document, with the fields of each value that are stored (a field of
  another name and a null are not); the JSON value null has no members. An error when the
  text is not a JSON object of objects of strings. -/
  parseIAM : Bytes → Except String (List Member)

/-- What `encoding/json` guarantees: the output is bytes, reading a written registry gives
its members in some order, and the empty text is no JSON value. -/
structure Json.Lawful (J : Json) : Prop where
  marshal_bytes : ∀ (r : IAM) (x : Nat), x ∈ J.marshalIAM r → x < 256
  parse_marshal : ∀ r : IAM, (r.map Prod.fst).Nodup →
    ∃ members, J.parseIAM (J.marshalIAM r) = .ok members ∧ members.Perm (r.map memberOf)
  parse_empty : ∃ e, J.parseIAM [] = .error e

/-- The value of a member: the decoder stores its fields into a zero `models.Secret`. -/
def decodeSecret (fields : List (SecretField × String)) : Secret :=
  fields.foldl (fun s f =>
    match f.1 with
    | .client_secret => ⟨f.2, s.AppName⟩
    | .app_name => ⟨s.ClientSecret, f.2⟩) ⟨"", ""⟩

/-- The string the value of a member gives to a field: that of the last occurrence of
the field, and the empty string of the zero entry when the field does not occur. -/
def lastValue (field : SecretField) (fields : List (SecretField × String)) : String :=
  match (fields.filter fun x => x.1 = field).getLast? with
  | some x => x.2
  | none => ""

/-- The map assignment `m[k] = v`. -/
def setEntry (m : IAM) (k : ClientID) (v : Secret) : IAM :=
  (k, v) :: m.filter fun e => e.1 ≠ k

/-- The object loop of the decoder: every member is decoded into a zero value and assigned
to the map under its key, in the order of the document. -/
def assignMembers (m : IAM) (members : List Member) : IAM :=
  members.foldl (fun m member => setEntry m member.1 (decodeSecret member.2)) m

/-- `json.Unmarshal(data, iam)` into an empty `models.IAM`. -/
def unmarshalIAM (J : Json) (data : Bytes) : Except String IAM :=
  match J.parseIAM data with
  | .error e => .error e
  | .ok members => .ok (assignMembers [] members)

namespace config

/-- `config.IAM` defines the configuration for the iam auth2 functionalities. -/
structure IAM where
  Users : String
  Secret : String
deriving DecidableEq, Repr

end config

/-- `New` creates and initializes the service from the configuration (the log lines it
writes are left out). -/
def New (J : Json) (c : config.IAM) : Option Service × Option String :=
  match Base64Decode c.Users with
  | .error err => (none, some ("could not decode iam users credentials: " ++ err))
  | .ok iamUsers =>
    match unmarshalIAM J iamUsers with
    | .error err => (none, some ("could not decode IAM information: " ++ err))
    | .ok iam => (some ⟨iam, utf8 c.Secret⟩, none)

/-! ## A reference instance of the JSON primitives -/

namespace Ref

/-- Numbers as bytes: the decimal digits of every number, lowest first, closed by the
byte 10. -/
def natsToBytes (ns : List Nat) : Bytes :=
  ns.flatMap fun n => Nat.digits 10 n ++ [10]

/-- Reads such bytes back: `ds` holds the digits read since the last closing byte. -/
def bytesToNats : Bytes → List Nat → List Nat
  | [], _ => []
  | b :: bs, ds =>
    if b = 10 then Nat.ofDigits 10 ds :: bytesToNats bs []
    else bytesToNats bs (ds ++ [b])

def marshalIAM (r : IAM) : Bytes :=
  natsToBytes (r.length :: r.flatMap fun e =>
    putString e.1 ++ (putString e.2.ClientSecret ++ putString e.2.AppName))

def getMembers : Nat → List Nat → Option (List Member)
  | 0, _ => some []
  | n + 1, b => do
    let (k, b) ← getString b
    let (sec, b) ← getString b
    let (app, b) ← getString b
    let rest ← getMembers n b
    pure ((k, [(.client_secret, sec), (.app_name, app)]) :: rest)

def parseIAM (b : Bytes) : Except String (List Member) :=
  match bytesToNats b [] with
  | [] => .error "unexpected end of JSON input"
  | n :: rest =>
    match getMembers n rest with
    | some members => .ok members
    | none => .error "unexpected end of JSON input"

/-- The reference JSON primitives. -/
def json : Json where
  marshalIAM := marshalIAM
  parseIAM := parseIAM

end Ref

/-! ## Further examples -/

namespace Example

/-- A credentials text in which the client id `c1` occurs twice, the second time with
another secret and app name. -/
def duplicateUsers : String :=
  Base64Encode (Ref.marshalIAM [("c1", ⟨"s1", "A"⟩), ("c2", ⟨"s2", "B"⟩), ("c1", ⟨"s3", "C"⟩)])

/-- The identity token of the app name `?` under the secret `k`, as the service emits it:
base64url of the header, of the claims and of the HMAC-SHA512 tag. -/
def questionMarkToken : String :=
  "eyJhbGciOiJIUzUxMiIsInR5cCI6IkpXVCJ9.eyJpc3MiOiJpYW0tcHJveHkiLCJzdWIiOiI_In0." ++
  "FwqeErWbXt2HkWgP4X5IzLaTtVYE34UJ0g8JmypAhpRq5p645sqVPC-1QX4ULLiQeNo_F82stFha6j7UeSZJJQ"

end Example

/-! ## internal/api/http.go: the health handler -/

namespace api

/-- What a handler leaves in the `gin.Context`: the status code, and the health value
written as JSON body, if any. -/
structure Response where
  Code : Nat
  Body : Option health.Health
deriving DecidableEq, Repr

def StatusOK : Nat := 200
def StatusInternalServerError : Nat := 500
def StatusServiceUnavailable : Nat := 503

/-- The response of a context no handler has written to: gin answers 200 without body. -/
def untouched : Response := ⟨StatusOK, none⟩

/-- The handler `Client.Health`, on the result `(h, err)` of the `Health` method of the
service (the log line is left out). -/
def Client.Health (result : health.Health × Option String) : Response :=
  match result with
  | (_, some _) => ⟨StatusInternalServerError, none⟩
  | (h, none) =>
    if h.Status = health.StatusAlive then ⟨StatusOK, some h⟩
    else if h.Status = health.StatusDegraded then ⟨StatusInternalServerError, some h⟩
    else if h.Status = health.StatusUnavailable then ⟨StatusServiceUnavailable, some h⟩
    else untouched

end api

/-! ## Examples of tokens under HS256 -/

namespace Example

/-- Claims with the issuer of the service, a subject and a not-before instant in the future
(at the clock instant 10). -/
def notYetValid : StandardClaims := ⟨"", 0, "", 0, "iam-proxy", 100, "A"⟩

/-- The claims `notYetValid` signed with the secret of `service` under HS256. -/
def notYetValidToken : String :=
  (jwt.SignedString Ref.lib .SHA256 notYetValid service.secret).1

/-- Claims with the issuer of the service, a subject and an expiry in the future. -/
def current : StandardClaims := ⟨"", 5000, "", 0, "iam-proxy", 0, "A"⟩

/-- A request whose Authorization header holds the word Bearer before the token. -/
def bearerRequest : clienthttp.Request := ⟨some [("Authorization", ["Bearer token"])]⟩

end Example

/-! ## The reference instance is lawful -/

namespace Ref

theorem digitChar_spec (d : Nat) (h : d < 10) :
    digitChar d ≠ ';' ∧ digitChar d ≠ '.' ∧ (digitChar d).toNat - 48 = d := by
  interval_cases d <;> decide

theorem decodeDecimal_digits (ds : List Nat) (hds : ∀ d ∈ ds, d < 10) (acc : List Nat)
    (rest : List Char) :
    decodeDecimal (ds.map digitChar ++ ';' :: rest) acc
      = Nat.ofDigits 10 (acc ++ ds) :: decodeDecimal rest [] := by
  induction ds generalizing acc with
  | nil => simp [decodeDecimal]
  | cons d ds ih =>
    have hd := digitChar_spec d (hds d (by simp))
    have := ih (fun x hx => hds x (by simp [hx])) (acc ++ [d])
    simp [decodeDecimal, hd.1, hd.2.2, this]

theorem decodeDecimal_encode (bs : Bytes) :
    decodeDecimal (bs.flatMap fun n => (Nat.digits 10 n).map digitChar ++ [';']) [] = bs := by
  induction bs with
  | nil => simp [decodeDecimal]
  | cons n ns ih =>
    have h := decodeDecimal_digits (Nat.digits 10 n)
      (fun d hd => Nat.digits_lt_base (by norm_num) hd) []
      (ns.flatMap fun n => (Nat.digits 10 n).map digitChar ++ [';'])
    simp only [List.flatMap_cons, List.append_assoc, List.singleton_append, h, ih,
      List.nil_append, Nat.ofDigits_digits]

theorem getString_putString (s : String) (rest : Bytes) :
    getString (putString s ++ rest) = some (s, rest) := by
  cases s with
  | mk d =>
    have h1 : (d.map Char.toNat ++ rest).take d.length = d.map Char.toNat := by
      rw [List.take_left']; simp
    have h2 : (d.map Char.toNat ++ rest).drop d.length = rest := by
      rw [List.drop_left']; simp
    have h3 : (d.map Char.toNat).map Char.ofNat = d := by
      rw [List.map_map]
      conv_rhs => rw [← List.map_id d]
      apply List.map_congr_left
      intro c _
      exact Char.ofNat_toNat c
    show (if d.length ≤ (d.map Char.toNat ++ rest).length then
      some (String.mk (((d.map Char.toNat ++ rest).take d.length).map Char.ofNat),
        (d.map Char.toNat ++ rest).drop d.length) else none) = _
    rw [h1, h2, h3, if_pos (by simp)]

theorem getInt_putInt (i : Int) (rest : Bytes) :
    getInt (putInt i ++ rest) = some (i, rest) := by
  by_cases h : i < 0
  · have e : -((i.natAbs : Nat) : Int) = i := by omega
    simp only [getInt, putInt, h, if_true, List.cons_append, List.nil_append, e]
  · have e : ((i.natAbs : Nat) : Int) = i := by omega
    simp only [getInt, putInt, h, if_false, List.cons_append, List.nil_append, e]
    simp

theorem lawful : lib.Lawful where
  decode_encode b := by
    simp [lib, decodeSegment, encodeSegment, decodeDecimal_encode]
  encode_no_dot b := by
    simp only [lib, encodeSegment, List.mem_flatMap, not_exists, not_and]
    intro n _ hm
    rcases List.mem_append.1 hm with h | h
    · obtain ⟨d, hd, e⟩ := List.mem_map.1 h
      exact (digitChar_spec d (Nat.digits_lt_base (by norm_num) hd)).2.1 e
    · simp at h
  headerAlg_marshal alg := by
    have := getString_putString alg []
    simp only [List.append_nil] at this
    simp [lib, headerAlg, this]
  unmarshal_marshal c := by
    simp [lib, unmarshalClaims, marshalClaims, getString_putString, getInt_putInt]
    have := getString_putString c.Subject []
    simp only [List.append_nil] at this
    simp [this]

end Ref

/-! ## Strings -/

theorem splitChars_length (sep : Char) (l : List Char) :
    (splitChars sep l).length = l.count sep + 1 := by
  induction l with
  | nil => simp [splitChars]
  | cons c cs ih =>
    by_cases h : c = sep
    · simp [splitChars, h, ih]
    · have h2 : ¬ (c == sep) = true := by simpa using h
      rw [List.count_cons, if_neg h2, ← ih]
      simp only [splitChars, h, if_false]
      split
      · rename_i e; rw [e] at ih; simp at ih
      · rename_i e; rw [e]; simp

theorem splitChars_of_not_mem (sep : Char) (p : List Char) (h : sep ∉ p) :
    splitChars sep p = [p] := by
  induction p with
  | nil => rfl
  | cons c cs ih =>
    have hc : c ≠ sep := fun e => h (by simp [e])
    have hcs : sep ∉ cs := fun e => h (by simp [e])
    simp [splitChars, hc, ih hcs]

theorem splitChars_append (sep : Char) (p rest : List Char) (h : sep ∉ p) :
    splitChars sep (p ++ sep :: rest) = p :: splitChars sep rest := by
  induction p with
  | nil => simp [splitChars]
  | cons c cs ih =>
    have hc : c ≠ sep := fun e => h (by simp [e])
    have hcs : sep ∉ cs := fun e => h (by simp [e])
    simp [splitChars, hc, ih hcs]

theorem splitDot_three (a b c : String) (ha : '.' ∉ a.data) (hb : '.' ∉ b.data)
    (hc : '.' ∉ c.data) : splitDot (a ++ "." ++ b ++ "." ++ c) = [a, b, c] := by
  have e : (a ++ "." ++ b ++ "." ++ c).data = a.data ++ '.' :: (b.data ++ '.' :: c.data) := by
    simp [String.data_append]
  simp [splitDot, e, splitChars_append, splitChars_of_not_mem, ha, hb, hc]

theorem intercalate_two (a b : String) : ".".intercalate [a, b] = a ++ "." ++ b := by
  simp [String.intercalate, String.intercalate.go]

theorem splitDot_length_lt_two (tok : String) :
    (splitDot tok).length < 2 ↔ '.' ∉ tok.data := by
  simp only [splitDot, List.length_map, splitChars_length]
  rw [← List.count_eq_zero]
  omega

/-! ## The jwt package -/

namespace jwt

theorem GetSigningMethod_Alg (L : Lib) (h : HashAlg) :
    GetSigningMethod L (SigningMethod.Alg (.HMAC h)) = some (.HMAC h) := by
  cases h <;> simp [GetSigningMethod, SigningMethod.Alg]

theorem GetSigningMethod_HMAC (L : Lib) (alg : String) (h : HashAlg)
    (e : GetSigningMethod L alg = some (.HMAC h)) :
    alg = "HS256" ∨ alg = "HS384" ∨ alg = "HS512" := by
  unfold GetSigningMethod at e
  by_cases h1 : alg = "HS256"
  · exact Or.inl h1
  · by_cases h2 : alg = "HS384"
    · exact Or.inr (Or.inl h2)
    · by_cases h3 : alg = "HS512"
      · exact Or.inr (Or.inr h3)
      · simp only [h1, h2, h3, if_false] at e
        split at e <;> simp at e

theorem Valid_errors_ne_zero (L : Lib) (c : StandardClaims) (now : Int) (e : ValidationError)
    (h : Valid L c now = some e) : e.Errors ≠ 0 := by
  unfold Valid at h
  by_cases hz : (validationError L c now).Errors = 0
  · simp [hz] at h
  · simp only [hz, if_false, Option.some.injEq] at h
    rw [← h]
    exact hz

theorem Valid_of_verified (L : Lib) (c : StandardClaims) (now : Int)
    (h1 : verifyExp c.ExpiresAt now false = true) (h2 : verifyIat c.IssuedAt now false = true)
    (h3 : verifyNbf c.NotBefore now false = true) : Valid L c now = none := by
  simp [Valid, validationError, h1, h2, h3]

theorem Valid_of_expired (L : Lib) (c : StandardClaims) (now : Int)
    (h1 : verifyExp c.ExpiresAt now false = false) (h2 : verifyIat c.IssuedAt now false = true)
    (h3 : verifyNbf c.NotBefore now false = true) :
    Valid L c now = some ⟨some ("token is expired by " ++ L.durationString (now - c.ExpiresAt)),
      "", ValidationErrorExpired⟩ := by
  simp [Valid, validationError, h1, h2, h3, ValidationErrorExpired]

end jwt

/-! ## Parsing signed tokens -/

theorem ParseToken_of_signedClaims (L : Lib) (s : Service) (now : Int) (tok : String)
    (c : StandardClaims) (h : jwt.signedClaims L s.secret tok = some c) :
    s.ParseToken L now tok =
      match jwt.Valid L c now with
      | some e => ("", some (parseTokenError ++ ": " ++ e.Error))
      | none => if c.Issuer ≠ issuer then ("", some invalidIssuer) else (c.Subject, none) := by
  unfold jwt.signedClaims at h
  unfold Service.ParseToken jwt.ParseWithClaims
  cases hp : jwt.ParseUnverified L tok with
  | error e => simp [hp] at h
  | ok r =>
    obtain ⟨token, parts⟩ := r
    simp only [hp] at h ⊢
    cases hm : token.Method with
    | other name => simp [hm] at h
    | HMAC hh =>
      simp only [hm] at h
      cases hv : jwt.verifyHMAC L hh (".".intercalate (parts.take 2)) (parts.getD 2 "") s.secret with
      | some e => rw [hv] at h; simp at h
      | none =>
        rw [hv] at h
        simp only [Option.some.injEq] at h
        simp only [Service.keyFunc, hm, jwt.SigningMethod.Verify, hv, h]
        cases hval : jwt.Valid L c now with
        | none => simp
        | some e =>
          have := jwt.Valid_errors_ne_zero L c now e hval
          simp [this]

theorem ParseUnverified_SignedString (L : Lib) (hL : L.Lawful) (h : HashAlg)
    (c : StandardClaims) (key : Bytes) :
    jwt.ParseUnverified L (jwt.SignedString L h c key).1 =
      .ok (⟨(jwt.SignedString L h c key).1, .HMAC h, c, "", false⟩,
        [L.encodeSegment (L.marshalHeader (jwt.SigningMethod.Alg (.HMAC h))),
         L.encodeSegment (L.marshalClaims c),
         jwt.signHMAC L h (jwt.SigningString L (.HMAC h) c) key]) := by
  have hs := splitDot_three _ _ _
    (hL.encode_no_dot (L.marshalHeader (jwt.SigningMethod.Alg (.HMAC h))))
    (hL.encode_no_dot (L.marshalClaims c))
    (hL.encode_no_dot (hmacSum L h key (utf8 (jwt.SigningString L (.HMAC h) c))))
  unfold jwt.ParseUnverified
  simp only [jwt.SignedString, jwt.SigningString, jwt.signHMAC] at hs ⊢
  rw [hs]
  simp only [hL.decode_encode, hL.headerAlg_marshal, hL.unmarshal_marshal,
    jwt.GetSigningMethod_Alg]

theorem verifyHMAC_signHMAC (L : Lib) (hL : L.Lawful) (h : HashAlg) (sstr : String)
    (key key2 : Bytes) :
    jwt.verifyHMAC L h sstr (jwt.signHMAC L h sstr key) key2 =
      if hmacSum L h key (utf8 sstr) ≠ hmacSum L h key2 (utf8 sstr)
      then some "signature is invalid" else none := by
  simp only [jwt.verifyHMAC, jwt.signHMAC, hL.decode_encode]

theorem signedClaims_SignedString (L : Lib) (hL : L.Lawful) (h : HashAlg)
    (c : StandardClaims) (key : Bytes) :
    jwt.signedClaims L key (jwt.SignedString L h c key).1 = some c := by
  unfold jwt.signedClaims
  rw [ParseUnverified_SignedString L hL]
  simp only [List.take, intercalate_two, List.getD_cons_succ, List.getD_cons_zero]
  have := verifyHMAC_signHMAC L hL h (jwt.SigningString L (.HMAC h) c) key key
  simp only [ne_eq, not_true_eq_false, if_false] at this
  simp only [jwt.SigningString] at this ⊢
  rw [this]

theorem lor_signatureInvalid_ne_zero (n : Nat) :
    n ||| jwt.ValidationErrorSignatureInvalid ≠ 0 := by
  intro h
  have := Nat.testBit_or n 4 2
  rw [show n ||| 4 = 0 from h] at this
  have h4 : Nat.testBit 4 2 = true := by decide
  rw [h4] at this
  simp at this

theorem ParseToken_SignedString_of_ne (L : Lib) (hL : L.Lawful) (s : Service) (now : Int)
    (h : HashAlg) (c : StandardClaims) (key : Bytes)
    (hne : hmacSum L h key (utf8 (jwt.SigningString L (.HMAC h) c))
      ≠ hmacSum L h s.secret (utf8 (jwt.SigningString L (.HMAC h) c))) :
    s.ParseToken L now (jwt.SignedString L h c key).1 =
      ("", some "could not parse token: signature is invalid") := by
  unfold Service.ParseToken jwt.ParseWithClaims
  rw [ParseUnverified_SignedString L hL]
  have hv := verifyHMAC_signHMAC L hL h (jwt.SigningString L (.HMAC h) c) key s.secret
  rw [if_pos hne] at hv
  simp only [jwt.SigningString] at hv ⊢
  simp only [Service.keyFunc, jwt.SigningMethod.Verify, List.take, intercalate_two,
    List.getD_cons_succ, List.getD_cons_zero, hv, lor_signatureInvalid_ne_zero, if_false]
  rfl

/-! ## Credentials -/

theorem length_eq_zero_iff (s : String) : s.length = 0 ↔ s = "" := by
  cases s with
  | mk d =>
    constructor
    · intro h
      have : d = [] := List.length_eq_zero.1 h
      rw [this]
    · intro h; rw [h]; rfl

theorem verifyUser_ok (s : Service) (clientID clientSecret appName : String)
    (hid : clientID ≠ "") (hsec : clientSecret ≠ "")
    (hreg : s.IAM.lookup clientID = some ⟨clientSecret, appName⟩) :
    s.verifyUser clientID clientSecret = (appName, none) := by
  have h1 : ¬ clientID.length = 0 := fun h => hid ((length_eq_zero_iff _).1 h)
  have h2 : ¬ clientSecret.length = 0 := fun h => hsec ((length_eq_zero_iff _).1 h)
  simp [Service.verifyUser, h1, h2, hreg]

theorem verifyUser_cases (s : Service) (clientID clientSecret : String) :
    (∃ entry, clientID ≠ "" ∧ clientSecret ≠ "" ∧ s.IAM.lookup clientID = some entry ∧
      entry.ClientSecret = clientSecret ∧
      s.verifyUser clientID clientSecret = (entry.AppName, none)) ∨
    ((clientID = "" ∨ clientSecret = "" ∨ s.IAM.lookup clientID = none ∨
        ∃ entry, s.IAM.lookup clientID = some entry ∧ entry.ClientSecret ≠ clientSecret) ∧
      ∃ msg, s.verifyUser clientID clientSecret = ("", some msg)) := by
  unfold Service.verifyUser
  by_cases h1 : clientID.length = 0
  · exact Or.inr ⟨Or.inl ((length_eq_zero_iff _).1 h1), "no client Id provided", by simp [h1]⟩
  · by_cases h2 : clientSecret.length = 0
    · exact Or.inr ⟨Or.inr (Or.inl ((length_eq_zero_iff _).1 h2)), "no client secret provided",
        by simp [h1, h2]⟩
    · have h1b : clientID ≠ "" := fun h => h1 ((length_eq_zero_iff _).2 h)
      have h2b : clientSecret ≠ "" := fun h => h2 ((length_eq_zero_iff _).2 h)
      cases hl : s.IAM.lookup clientID with
      | none =>
        exact Or.inr ⟨Or.inr (Or.inr (Or.inl rfl)), "client id does not exist", by simp [h1, h2]⟩
      | some entry =>
        by_cases h3 : entry.ClientSecret = clientSecret
        · exact Or.inl ⟨entry, h1b, h2b, rfl, h3, by simp [h1, h2, h3]⟩
        · exact Or.inr ⟨Or.inr (Or.inr (Or.inr ⟨entry, rfl, h3⟩)), "client secret does not match",
            by simp [h1, h2, h3]⟩

theorem GenerateToken_of_verified (L : Lib) (s : Service) (now : Int) (random : Bytes)
    (clientID clientSecret appName : String)
    (h : s.verifyUser clientID clientSecret = (appName, none)) :
    s.GenerateToken L now random clientID clientSecret =
      ((jwt.SignedString L .SHA512 (accessClaims now random) s.secret).1,
       (jwt.SignedString L .SHA512 (identityClaims appName) s.secret).1,
       3600, none) := by
  simp [Service.GenerateToken, h, Service.createToken, jwt.SignedString, expirationInterval]

theorem GenerateToken_of_rejected (L : Lib) (s : Service) (now : Int) (random : Bytes)
    (clientID clientSecret msg : String)
    (h : s.verifyUser clientID clientSecret = ("", some msg)) :
    s.GenerateToken L now random clientID clientSecret =
      ("", "", 0, some ("user not authorized to use iam service: " ++ msg)) := by
  simp [Service.GenerateToken, h]

theorem uuid_String_ne_empty (u : Bytes) : uuid.String u ≠ "" := by
  intro h
  have := congrArg String.length h
  simp [uuid.String, String.length] at this

theorem Valid_identityClaims (L : Lib) (appName : String) (now : Int) :
    jwt.Valid L (identityClaims appName) now = none := by
  apply jwt.Valid_of_verified <;> simp [identityClaims, jwt.verifyExp, jwt.verifyIat, jwt.verifyNbf]

theorem Valid_accessClaims (L : Lib) (now now2 : Int) (random : Bytes)
    (h : now2 ≤ now + 3600) : jwt.Valid L (accessClaims now random) now2 = none := by
  apply jwt.Valid_of_verified
  · simp only [accessClaims, jwt.verifyExp, expirationInterval]
    split
    · rfl
    · simpa using h
  · simp [accessClaims, jwt.verifyIat]
  · simp [accessClaims, jwt.verifyNbf]

/-! ## The claims -/

/-- C1: for every service and every registry entry (clientID, clientSecret, appName) with
non-empty id and secret, `GenerateToken` succeeds and `ParseToken`, on the same service
and at any clock instant, returns exactly the app name and no error for the identity token. -/
theorem C1_identity_token_resolves_to_appName (L : Lib) (hL : L.Lawful) (s : Service)
    (now now2 : Int) (random : Bytes) (clientID clientSecret appName : String)
    (hid : clientID ≠ "") (hsec : clientSecret ≠ "")
    (hreg : s.IAM.lookup clientID = some ⟨clientSecret, appName⟩) :
    (s.GenerateToken L now random clientID clientSecret).2.2.2 = none ∧
    s.ParseToken L now2 (s.GenerateToken L now random clientID clientSecret).2.1
      = (appName, none) := by
  rw [GenerateToken_of_verified L s now random clientID clientSecret appName
    (verifyUser_ok s clientID clientSecret appName hid hsec hreg)]
  refine ⟨rfl, ?_⟩
  rw [ParseToken_of_signedClaims L s now2 _ _ (signedClaims_SignedString L hL _ _ _),
    Valid_identityClaims]
  simp [identityClaims]

theorem C1_witness :
    (Example.service.GenerateToken Ref.lib 1000 [] "c1" "s1").2.2.2 = none ∧
    Example.service.ParseToken Ref.lib 2000
      (Example.service.GenerateToken Ref.lib 1000 [] "c1" "s1").2.1 = ("A", none) :=
  C1_identity_token_resolves_to_appName Ref.lib Ref.lawful Example.service 1000 2000 []
    "c1" "s1" "A" (by decide) (by decide) (by decide)

/-- C2: `GenerateToken` returns an error if and only if the client id is empty, or the
client secret is empty, or the client id is not a key of the registry, or the stored secret
differs from the supplied one; the signing secret plays no part in it. -/
theorem C2_GenerateToken_error_iff (L : Lib) (s : Service) (now : Int) (random : Bytes)
    (clientID clientSecret : String) :
    (s.GenerateToken L now random clientID clientSecret).2.2.2 ≠ none ↔
      (clientID = "" ∨ clientSecret = "" ∨ s.IAM.lookup clientID = none ∨
        ∃ entry, s.IAM.lookup clientID = some entry ∧ entry.ClientSecret ≠ clientSecret) := by
  rcases verifyUser_cases s clientID clientSecret with ⟨entry, h1, h2, h3, h4, h5⟩ | ⟨hc, msg, h⟩
  · rw [GenerateToken_of_verified L s now random clientID clientSecret _ h5]
    simp [h1, h2, h3, h4]
  · rw [GenerateToken_of_rejected L s now random clientID clientSecret msg h]
    exact ⟨fun _ => hc, fun _ => by simp⟩

/-- C3: for a client id that is not registered, and for a secret that does not match the
stored one, `GenerateToken` yields an error and no tokens: both tokens are the empty string
and the expiry is 0. -/
theorem C3_unauthorized_yields_no_tokens (L : Lib) (s : Service) (now : Int) (random : Bytes)
    (clientID clientSecret : String)
    (h : s.IAM.lookup clientID = none ∨
      ∃ entry, s.IAM.lookup clientID = some entry ∧ entry.ClientSecret ≠ clientSecret) :
    ∃ msg, s.GenerateToken L now random clientID clientSecret = ("", "", 0, some msg) := by
  rcases verifyUser_cases s clientID clientSecret with ⟨entry, _, _, h3, h4, _⟩ | ⟨_, msg, hm⟩
  · rcases h with h | ⟨e, h, hne⟩
    · rw [h] at h3; cases h3
    · rw [h] at h3; cases h3; exact absurd h4 hne
  · exact ⟨_, GenerateToken_of_rejected L s now random clientID clientSecret msg hm⟩

theorem C3_witness :
    (∃ msg, Example.service.GenerateToken Ref.lib 1000 [] "c2" "s1" = ("", "", 0, some msg)) ∧
    (∃ msg, Example.service.GenerateToken Ref.lib 1000 [] "c1" "wrong" = ("", "", 0, some msg)) :=
  ⟨C3_unauthorized_yields_no_tokens Ref.lib Example.service 1000 [] "c2" "s1"
      (Or.inl (by decide)),
    C3_unauthorized_yields_no_tokens Ref.lib Example.service 1000 [] "c1" "wrong"
      (Or.inr ⟨⟨"s1", "A"⟩, by decide, by decide⟩)⟩

/-- C8: for every token string with fewer than 2 dot-separated segments (a string without
a dot, the empty string included), `ParseToken` fails with an empty subject and a message
that starts with "could not parse token". -/
theorem C8_too_few_segments_rejected (L : Lib) (s : Service) (now : Int) (tok : String)
    (h : (splitDot tok).length < 2) :
    '.' ∉ tok.data ∧
    s.ParseToken L now tok =
      ("", some "could not parse token: token contains an invalid number of segments") ∧
    ∃ msg, s.ParseToken L now tok = ("", some msg) ∧ parseTokenError.data <+: msg.data := by
  have hd : '.' ∉ tok.data := (splitDot_length_lt_two tok).1 h
  have hs : splitDot tok = [tok] := by
    simp [splitDot, splitChars_of_not_mem _ _ hd]
  have hp : s.ParseToken L now tok =
      ("", some "could not parse token: token contains an invalid number of segments") := by
    simp [Service.ParseToken, jwt.ParseWithClaims, jwt.ParseUnverified, hs,
      jwt.NewValidationError, jwt.ValidationError.Error, parseTokenError]
  refine ⟨hd, hp, _, hp, ?_⟩
  exact ⟨": token contains an invalid number of segments".data, rfl⟩

theorem C8_witness :
    '.' ∉ "".data ∧
    Example.service.ParseToken Ref.lib 1000 "" =
      ("", some "could not parse token: token contains an invalid number of segments") ∧
    ∃ msg, Example.service.ParseToken Ref.lib 1000 "" = ("", some msg) ∧
      parseTokenError.data <+: msg.data :=
  C8_too_few_segments_rejected Ref.lib Example.service 1000 "" (by decide)

/-- C9: after a successful `GenerateToken` at the instant `now`, `ParseToken` on the same
service accepts the access token at every instant before `now + 3600` and returns the
empty subject without error. -/
theorem C9_access_token_parses_with_empty_subject (L : Lib) (hL : L.Lawful) (s : Service)
    (now now2 : Int) (random : Bytes) (clientID clientSecret : String)
    (hok : (s.GenerateToken L now random clientID clientSecret).2.2.2 = none)
    (hbefore : now2 < now + 3600) :
    s.ParseToken L now2 (s.GenerateToken L now random clientID clientSecret).1 = ("", none) := by
  rcases verifyUser_cases s clientID clientSecret with ⟨entry, _, _, _, _, h5⟩ | ⟨_, msg, hm⟩
  · rw [GenerateToken_of_verified L s now random clientID clientSecret _ h5]
    rw [ParseToken_of_signedClaims L s now2 _ _ (signedClaims_SignedString L hL _ _ _),
      Valid_accessClaims L now now2 random (le_of_lt hbefore)]
    simp [accessClaims]
  · rw [GenerateToken_of_rejected L s now random clientID clientSecret msg hm] at hok
    simp at hok

theorem C9_witness :
    Example.service.ParseToken Ref.lib 4599
      (Example.service.GenerateToken Ref.lib 1000 [] "c1" "s1").1 = ("", none) :=
  C9_access_token_parses_with_empty_subject Ref.lib Ref.lawful Example.service 1000 4599 []
    "c1" "s1"
    (by rw [GenerateToken_of_verified Ref.lib Example.service 1000 [] "c1" "s1" "A"
      (verifyUser_ok Example.service "c1" "s1" "A" (by decide) (by decide) (by decide))])
    (by decide)

/-- C10: on success `GenerateToken` signs exactly two claim sets, both with the secret of the
service: the access claims have a non-empty id, the issuer "iam-proxy", an expiry of the
issue instant plus 3600 seconds and no subject; the identity claims have the issuer
"iam-proxy", the registered app name as subject, no id and no expiry. -/
theorem C10_claim_sets_of_issued_tokens (L : Lib) (s : Service) (now : Int) (random : Bytes)
    (clientID clientSecret : String)
    (hok : (s.GenerateToken L now random clientID clientSecret).2.2.2 = none) :
    ∃ entry, s.IAM.lookup clientID = some entry ∧
      s.GenerateToken L now random clientID clientSecret =
        ((jwt.SignedString L .SHA512 (accessClaims now random) s.secret).1,
         (jwt.SignedString L .SHA512 (identityClaims entry.AppName) s.secret).1, 3600, none) ∧
      (accessClaims now random).Id ≠ "" ∧
      (accessClaims now random).Issuer = "iam-proxy" ∧
      (accessClaims now random).ExpiresAt = now + 3600 ∧
      (accessClaims now random).Subject = "" ∧
      (identityClaims entry.AppName).Issuer = "iam-proxy" ∧
      (identityClaims entry.AppName).Subject = entry.AppName ∧
      (identityClaims entry.AppName).Id = "" ∧
      (identityClaims entry.AppName).ExpiresAt = 0 := by
  rcases verifyUser_cases s clientID clientSecret with ⟨entry, _, _, h3, _, h5⟩ | ⟨_, msg, hm⟩
  · refine ⟨entry, h3, GenerateToken_of_verified L s now random clientID clientSecret _ h5,
      uuid_String_ne_empty _, rfl, rfl, rfl, rfl, rfl, rfl, rfl⟩
  · rw [GenerateToken_of_rejected L s now random clientID clientSecret msg hm] at hok
    simp at hok

theorem C10_witness :
    ∃ entry, Example.service.IAM.lookup "c1" = some entry ∧
      Example.service.GenerateToken Ref.lib 1000 [] "c1" "s1" =
        ((jwt.SignedString Ref.lib .SHA512 (accessClaims 1000 []) Example.service.secret).1,
         (jwt.SignedString Ref.lib .SHA512 (identityClaims entry.AppName)
            Example.service.secret).1, 3600, none) ∧
      (accessClaims 1000 []).Id ≠ "" ∧
      (accessClaims 1000 []).Issuer = "iam-proxy" ∧
      (accessClaims 1000 []).ExpiresAt = 1000 + 3600 ∧
      (accessClaims 1000 []).Subject = "" ∧
      (identityClaims entry.AppName).Issuer = "iam-proxy" ∧
      (identityClaims entry.AppName).Subject = entry.AppName ∧
      (identityClaims entry.AppName).Id = "" ∧
      (identityClaims entry.AppName).ExpiresAt = 0 :=
  C10_claim_sets_of_issued_tokens Ref.lib Example.service 1000 [] "c1" "s1"
    (by rw [GenerateToken_of_verified Ref.lib Example.service 1000 [] "c1" "s1" "A"
      (verifyUser_ok Example.service "c1" "s1" "A" (by decide) (by decide) (by decide))])

/-! ### Signing methods -/

theorem declaredAlg_encoded (L : Lib) (hL : L.Lawful) (alg p1 p2 : String)
    (h1 : '.' ∉ p1.data) (h2 : '.' ∉ p2.data) :
    jwt.declaredAlg L (L.encodeSegment (L.marshalHeader alg) ++ "." ++ p1 ++ "." ++ p2)
      = some alg := by
  simp [jwt.declaredAlg, splitDot_three _ _ _ (hL.encode_no_dot _) h1 h2,
    hL.decode_encode, hL.headerAlg_marshal]

/-- C7: `ParseToken` rejects every token whose header declares a signing method that is
not one of the HMAC methods, whatever its payload and signature segments are: subject and
error are the same for every service; when the payload decodes, the error is that of the
method check, "unexpected signing method" for a registered method and "signing method
(alg) is unavailable." for an unknown one; and the key function returns an error, not the
secret, for every method found under such a name. -/
theorem C7_non_HMAC_method_rejected (L : Lib) (now : Int) (tok alg : String)
    (hdecl : jwt.declaredAlg L tok = some alg)
    (hnot : alg ≠ "HS256" ∧ alg ≠ "HS384" ∧ alg ≠ "HS512") :
    ∃ msg, (∀ s : Service, s.ParseToken L now tok = ("", some msg)) ∧
      (∀ (p0 p1 p2 : String) (cb : Bytes) (c : StandardClaims),
        splitDot tok = [p0, p1, p2] → L.decodeSegment p1 = .ok cb →
        L.unmarshalClaims cb = .ok c →
        msg = if L.registered alg = true
          then "could not parse token: unexpected signing method: " ++ alg
          else "could not parse token: signing method (alg) is unavailable.") ∧
      (∀ (m : jwt.SigningMethod) (s : Service) (token : jwt.Token),
        jwt.GetSigningMethod L alg = some m → token.Method = m →
        s.keyFunc token = .error ("unexpected signing method: " ++ alg)) := by
  obtain ⟨n1, n2, n3⟩ := hnot
  have hkey : ∀ (m : jwt.SigningMethod) (s : Service) (token : jwt.Token),
      jwt.GetSigningMethod L alg = some m → token.Method = m →
      s.keyFunc token = .error ("unexpected signing method: " ++ alg) := by
    intro m s token hm ht
    simp only [jwt.GetSigningMethod, n1, n2, n3, if_false] at hm
    split at hm
    · cases hm
      simp only [Service.keyFunc, ht]
    · cases hm
  unfold jwt.declaredAlg at hdecl
  split at hdecl
  · rename_i p0 p1 p2 hs
    split at hdecl
    · cases hdecl
    · rename_i hb hd
      split at hdecl
      · cases hdecl
      · rename_i a ha
        subst hdecl
        cases hc : L.decodeSegment p1 with
        | error e =>
          refine ⟨parseTokenError ++ ": " ++ e, fun s => ?_, ?_, hkey⟩
          · simp [Service.ParseToken, jwt.ParseWithClaims, jwt.ParseUnverified, hs, hd, ha, hc,
              jwt.ValidationError.Error]
          · intro q0 q1 q2 cb c hq hdq _
            rw [hs] at hq
            cases hq
            rw [hc] at hdq
            cases hdq
        | ok cb =>
          cases hu : L.unmarshalClaims cb with
          | error e =>
            refine ⟨parseTokenError ++ ": " ++ e, fun s => ?_, ?_, hkey⟩
            · simp [Service.ParseToken, jwt.ParseWithClaims, jwt.ParseUnverified, hs, hd, ha,
                hc, hu, jwt.ValidationError.Error]
            · intro q0 q1 q2 cb2 c hq hdq huq
              rw [hs] at hq
              cases hq
              rw [hc] at hdq
              cases hdq
              rw [hu] at huq
              cases huq
          | ok c =>
            by_cases hr : L.registered alg = true
            · refine ⟨parseTokenError ++ ": " ++ ("unexpected signing method: " ++ alg),
                fun s => ?_, ?_, hkey⟩
              · simp [Service.ParseToken, jwt.ParseWithClaims, jwt.ParseUnverified, hs, hd, ha,
                  hc, hu, jwt.GetSigningMethod, n1, n2, n3, hr, Service.keyFunc,
                  jwt.ValidationError.Error]
              · intro _ _ _ _ _ _ _ _
                rw [if_pos hr]
                rfl
            · refine ⟨parseTokenError ++ ": " ++ "signing method (alg) is unavailable.",
                fun s => ?_, ?_, hkey⟩
              · simp [Service.ParseToken, jwt.ParseWithClaims, jwt.ParseUnverified, hs, hd, ha,
                  hc, hu, jwt.GetSigningMethod, n1, n2, n3, hr, jwt.NewValidationError,
                  jwt.ValidationError.Error]
              · intro _ _ _ _ _ _ _ _
                rw [if_neg hr]
                rfl
  · cases hdecl

theorem substitutedToken_segments :
    splitDot Example.substitutedToken =
      [Ref.lib.encodeSegment (Ref.lib.marshalHeader "none"),
       Ref.lib.encodeSegment (Ref.lib.marshalClaims (identityClaims "A")),
       jwt.signHMAC Ref.lib .SHA512
         (jwt.SigningString Ref.lib (.HMAC .SHA512) (identityClaims "A"))
         Example.service.secret] :=
  splitDot_three _ _ _ (Ref.lawful.encode_no_dot _) (Ref.lawful.encode_no_dot _)
    (Ref.lawful.encode_no_dot _)

theorem C7_witness :
    ∃ msg, msg = "could not parse token: unexpected signing method: none" ∧
      (∀ s : Service, s.ParseToken Ref.lib 1000 Example.substitutedToken = ("", some msg)) ∧
      ∀ (s : Service) (token : jwt.Token), token.Method = .other "none" →
        s.keyFunc token = .error "unexpected signing method: none" := by
  obtain ⟨msg, h1, h2, h3⟩ := C7_non_HMAC_method_rejected Ref.lib 1000 Example.substitutedToken
    "none"
    (declaredAlg_encoded Ref.lib Ref.lawful "none" _ _ (Ref.lawful.encode_no_dot _)
      (Ref.lawful.encode_no_dot _))
    (by decide)
  have hm := h2 _ _ _ _ _ substitutedToken_segments (Ref.lawful.decode_encode _)
    (Ref.lawful.unmarshal_marshal (identityClaims "A"))
  have hreg : Ref.lib.registered "none" = true := by decide
  rw [if_pos hreg] at hm
  exact ⟨msg, hm, h1, fun s token ht => h3 (.other "none") s token (by decide) ht⟩

/-! ### Other secrets -/

theorem hmacKeyBlock_append_zero (L : Lib) (h : HashAlg) (key : Bytes)
    (hlen : key.length < h.blockSize) :
    hmacKeyBlock L h (key ++ [0]) = hmacKeyBlock L h key := by
  have hl : (key ++ [0]).length = key.length + 1 := by simp
  have h1 : ¬ (key ++ [0]).length > h.blockSize := by omega
  have h2 : ¬ key.length > h.blockSize := by omega
  have h3 : h.blockSize - key.length = (h.blockSize - (key.length + 1)) + 1 := by omega
  show ((if (key ++ [0]).length > h.blockSize then L.hash h (key ++ [0]) else key ++ [0]) ++
      List.replicate (h.blockSize -
        (if (key ++ [0]).length > h.blockSize then L.hash h (key ++ [0])
          else key ++ [0]).length) 0).take h.blockSize =
    ((if key.length > h.blockSize then L.hash h key else key) ++
      List.replicate (h.blockSize -
        (if key.length > h.blockSize then L.hash h key else key).length) 0).take h.blockSize
  rw [if_neg h1, if_neg h2, hl, h3, List.replicate_succ]
  simp

theorem hmacSum_append_zero (L : Lib) (h : HashAlg) (key msg : Bytes)
    (hlen : key.length < h.blockSize) :
    hmacSum L h (key ++ [0]) msg = hmacSum L h key msg := by
  simp only [hmacSum, hmacKeyBlock_append_zero L h key hlen]

/-- A secret and the same secret followed by a zero byte sign alike: every token signed
with the one is a correctly signed token under the other. -/
theorem signedClaims_zero_padded (L : Lib) (hL : L.Lawful) (h : HashAlg) (c : StandardClaims)
    (key : Bytes) (hlen : key.length < h.blockSize) :
    jwt.signedClaims L (key ++ [0]) (jwt.SignedString L h c key).1 = some c := by
  unfold jwt.signedClaims
  rw [ParseUnverified_SignedString L hL]
  simp only [List.take, intercalate_two, List.getD_cons_succ, List.getD_cons_zero]
  have := verifyHMAC_signHMAC L hL h (jwt.SigningString L (.HMAC h) c) key (key ++ [0])
  rw [hmacSum_append_zero L h key _ hlen] at this
  simp only [ne_eq, not_true_eq_false, if_false] at this
  simp only [jwt.SigningString] at this ⊢
  rw [this]

theorem Ref_hmacSum_ne (m : Bytes) :
    hmacSum Ref.lib .SHA512 [107] m ≠ hmacSum Ref.lib .SHA512 [108] m := by
  have b1 : hmacKeyBlock Ref.lib .SHA512 [107] = 107 :: List.replicate 127 0 := by decide
  have b2 : hmacKeyBlock Ref.lib .SHA512 [108] = 108 :: List.replicate 127 0 := by decide
  intro h
  have := congrArg List.head? h
  unfold hmacSum at this
  rw [b1, b2] at this
  simp only [Ref.lib, Ref.hash, List.map_cons, List.cons_append,
    List.head?_cons, Option.some.injEq] at this
  revert this
  decide

/-- C4, the counterexample: the secrets `k` and `k` followed by a zero byte differ, and the
identity token issued under the first is accepted under the second and resolves to the
app name. -/
theorem C4_counterexample :
    Example.service.secret ≠ Example.paddedService.secret ∧
    (Example.service.GenerateToken Ref.lib 1000 [] "c1" "s1").2.2.2 = none ∧
    Example.paddedService.ParseToken Ref.lib 1000
      (Example.service.GenerateToken Ref.lib 1000 [] "c1" "s1").2.1 = ("A", none) := by
  refine ⟨by decide, ?_, ?_⟩
  · rw [GenerateToken_of_verified Ref.lib Example.service 1000 [] "c1" "s1" "A"
      (verifyUser_ok Example.service "c1" "s1" "A" (by decide) (by decide) (by decide))]
  · rw [GenerateToken_of_verified Ref.lib Example.service 1000 [] "c1" "s1" "A"
      (verifyUser_ok Example.service "c1" "s1" "A" (by decide) (by decide) (by decide))]
    show Example.paddedService.ParseToken Ref.lib 1000
      (jwt.SignedString Ref.lib .SHA512 (identityClaims "A") [107]).1 = _
    rw [ParseToken_of_signedClaims Ref.lib Example.paddedService 1000 _ (identityClaims "A")
      (signedClaims_zero_padded Ref.lib Ref.lawful .SHA512 _ [107] (by decide)),
      Valid_identityClaims]
    simp [identityClaims]

/-- C4, amended: when the HMAC-SHA512 tags of the two signing inputs under the secret of
the parsing service differ from the tags under the issuing secret, `ParseToken` rejects
both tokens of a successful `GenerateToken` with the signature error and no subject. -/
theorem C4_other_secret_rejected_when_tags_differ (L : Lib) (hL : L.Lawful) (s s2 : Service)
    (now now2 : Int) (random : Bytes) (clientID clientSecret : String)
    (hok : (s.GenerateToken L now random clientID clientSecret).2.2.2 = none)
    (hacc : hmacSum L .SHA512 s.secret
        (utf8 (jwt.SigningString L (.HMAC .SHA512) (accessClaims now random)))
      ≠ hmacSum L .SHA512 s2.secret
        (utf8 (jwt.SigningString L (.HMAC .SHA512) (accessClaims now random))))
    (hid : hmacSum L .SHA512 s.secret
        (utf8 (jwt.SigningString L (.HMAC .SHA512)
          (identityClaims (s.verifyUser clientID clientSecret).1)))
      ≠ hmacSum L .SHA512 s2.secret
        (utf8 (jwt.SigningString L (.HMAC .SHA512)
          (identityClaims (s.verifyUser clientID clientSecret).1)))) :
    s2.ParseToken L now2 (s.GenerateToken L now random clientID clientSecret).1
      = ("", some "could not parse token: signature is invalid") ∧
    s2.ParseToken L now2 (s.GenerateToken L now random clientID clientSecret).2.1
      = ("", some "could not parse token: signature is invalid") := by
  rcases verifyUser_cases s clientID clientSecret with ⟨entry, _, _, _, _, h5⟩ | ⟨_, msg, hm⟩
  · rw [h5] at hid
    rw [GenerateToken_of_verified L s now random clientID clientSecret _ h5]
    exact ⟨ParseToken_SignedString_of_ne L hL s2 now2 .SHA512 _ s.secret hacc,
      ParseToken_SignedString_of_ne L hL s2 now2 .SHA512 _ s.secret hid⟩
  · rw [GenerateToken_of_rejected L s now random clientID clientSecret msg hm] at hok
    simp at hok

theorem C4_witness :
    Example.otherService.ParseToken Ref.lib 2000
        (Example.service.GenerateToken Ref.lib 1000 [] "c1" "s1").1
      = ("", some "could not parse token: signature is invalid") ∧
    Example.otherService.ParseToken Ref.lib 2000
        (Example.service.GenerateToken Ref.lib 1000 [] "c1" "s1").2.1
      = ("", some "could not parse token: signature is invalid") :=
  C4_other_secret_rejected_when_tags_differ Ref.lib Ref.lawful Example.service
    Example.otherService 1000 2000 [] "c1" "s1"
    (by rw [GenerateToken_of_verified Ref.lib Example.service 1000 [] "c1" "s1" "A"
      (verifyUser_ok Example.service "c1" "s1" "A" (by decide) (by decide) (by decide))])
    (Ref_hmacSum_ne _) (Ref_hmacSum_ne _)

/-! ### Expiry and issuer -/

theorem ParseToken_of_invalid (L : Lib) (s : Service) (now : Int) (tok : String) (c : StandardClaims)
    (e : jwt.ValidationError) (hs : jwt.signedClaims L s.secret tok = some c)
    (hv : jwt.Valid L c now = some e) :
    s.ParseToken L now tok = ("", some ("could not parse token: " ++ e.Error)) := by
  rw [ParseToken_of_signedClaims L s now tok c hs, hv]
  rfl

theorem Valid_ne_none_of_expired (L : Lib) (c : StandardClaims) (now : Int)
    (h0 : c.ExpiresAt ≠ 0) (hexp : c.ExpiresAt < now) : jwt.Valid L c now ≠ none := by
  have h1 : jwt.verifyExp c.ExpiresAt now false = false := by
    simp [jwt.verifyExp, h0, hexp]
  have e4 : Nat.testBit (0 ||| jwt.ValidationErrorExpired) 4 = true := by decide
  have ht : (jwt.validationError L c now).Errors.testBit 4 = true := by
    unfold jwt.validationError
    simp only [h1, if_true]
    split <;> split <;> simp only [Nat.testBit_or, e4, Bool.true_or]
  intro hn
  unfold jwt.Valid at hn
  split at hn
  · rename_i hz
    rw [hz] at ht
    simp at ht
  · cases hn

/-- C5, the counterexample: a token signed with the secret of the service whose expiry (5)
lies before the clock instant (10) and whose not-before instant (100) lies after it is
rejected with a message that does not contain "token is expired". -/
theorem C5_counterexample :
    jwt.signedClaims Ref.lib Example.service.secret Example.expiredNotYetValidToken
      = some Example.expiredNotYetValid ∧
    Example.expiredNotYetValid.ExpiresAt < 10 ∧
    Example.service.ParseToken Ref.lib 10 Example.expiredNotYetValidToken
      = ("", some "could not parse token: token is not valid yet") ∧
    ¬ ("token is expired".data <:+: "could not parse token: token is not valid yet".data) := by
  have hs : jwt.signedClaims Ref.lib Example.service.secret Example.expiredNotYetValidToken
      = some Example.expiredNotYetValid :=
    signedClaims_SignedString Ref.lib Ref.lawful .SHA512 _ _
  refine ⟨hs, by decide, ?_, by decide⟩
  rw [ParseToken_of_signedClaims Ref.lib Example.service 10 _ _ hs]
  rfl

/-- C5, amended: a token correctly signed with the secret of the service whose expiresAt
claim is present (not zero) and earlier than the clock instant is rejected with an empty
subject and a message that starts with "could not parse token: "; when its issuedAt and
notBefore claims are absent or not later than the clock instant, the message is
"could not parse token: token is expired by " followed by the elapsed duration. -/
theorem C5_expired_token_rejected (L : Lib) (s : Service) (now : Int) (tok : String)
    (c : StandardClaims) (hs : jwt.signedClaims L s.secret tok = some c)
    (h0 : c.ExpiresAt ≠ 0) (hexp : c.ExpiresAt < now) :
    (∃ msg, s.ParseToken L now tok = ("", some ("could not parse token: " ++ msg))) ∧
    ((c.IssuedAt = 0 ∨ c.IssuedAt ≤ now) → (c.NotBefore = 0 ∨ c.NotBefore ≤ now) →
      s.ParseToken L now tok = ("", some ("could not parse token: " ++
        ("token is expired by " ++ L.durationString (now - c.ExpiresAt))))) := by
  constructor
  · cases hv : jwt.Valid L c now with
    | none => exact absurd hv (Valid_ne_none_of_expired L c now h0 hexp)
    | some e => exact ⟨e.Error, ParseToken_of_invalid L s now tok c e hs hv⟩
  · intro hiat hnbf
    have h1 : jwt.verifyExp c.ExpiresAt now false = false := by
      simp [jwt.verifyExp, h0, hexp]
    have h2 : jwt.verifyIat c.IssuedAt now false = true := by
      unfold jwt.verifyIat
      rcases hiat with h | h
      · simp [h]
      · split
        · rfl
        · simpa using h
    have h3 : jwt.verifyNbf c.NotBefore now false = true := by
      unfold jwt.verifyNbf
      rcases hnbf with h | h
      · simp [h]
      · split
        · rfl
        · simpa using h
    rw [ParseToken_of_invalid L s now tok c _ hs (jwt.Valid_of_expired L c now h1 h2 h3)]
    rfl

theorem C5_witness :
    (∃ msg, Example.service.ParseToken Ref.lib 10 Example.expiredToken
      = ("", some ("could not parse token: " ++ msg))) ∧
    ((Example.expired.IssuedAt = 0 ∨ Example.expired.IssuedAt ≤ 10) →
      (Example.expired.NotBefore = 0 ∨ Example.expired.NotBefore ≤ 10) →
      Example.service.ParseToken Ref.lib 10 Example.expiredToken
        = ("", some ("could not parse token: " ++
          ("token is expired by " ++ Ref.lib.durationString (10 - Example.expired.ExpiresAt))))) :=
  C5_expired_token_rejected Ref.lib Example.service 10 Example.expiredToken Example.expired
    (signedClaims_SignedString Ref.lib Ref.lawful .SHA256 _ _) (by decide) (by decide)

/-- C6, the counterexample: a token signed with the secret of the service, without expiry,
with a foreign issuer and a not-before instant (100) after the clock instant (10) is
rejected with the parse error, not with "issuer is invalid". -/
theorem C6_counterexample :
    jwt.signedClaims Ref.lib Example.service.secret Example.foreignNotYetValidToken
      = some Example.foreignNotYetValid ∧
    jwt.verifyExp Example.foreignNotYetValid.ExpiresAt 10 false = true ∧
    Example.foreignNotYetValid.Issuer ≠ "iam-proxy" ∧
    Example.service.ParseToken Ref.lib 10 Example.foreignNotYetValidToken
      = ("", some "could not parse token: token is not valid yet") ∧
    Example.service.ParseToken Ref.lib 10 Example.foreignNotYetValidToken
      ≠ ("", some "issuer is invalid") := by
  have hs : jwt.signedClaims Ref.lib Example.service.secret Example.foreignNotYetValidToken
      = some Example.foreignNotYetValid :=
    signedClaims_SignedString Ref.lib Ref.lawful .SHA512 _ _
  have hp : Example.service.ParseToken Ref.lib 10 Example.foreignNotYetValidToken
      = ("", some "could not parse token: token is not valid yet") := by
    rw [ParseToken_of_signedClaims Ref.lib Example.service 10 _ _ hs]
    rfl
  refine ⟨hs, by decide, by decide, hp, ?_⟩
  rw [hp]
  decide

/-- C6, amended: a token correctly signed with the secret of the service, not expired, whose
issuedAt and notBefore claims are absent or not later than the clock instant and whose
issuer is not exactly "iam-proxy" is rejected with the error "issuer is invalid" and an
empty subject. -/
theorem C6_foreign_issuer_rejected (L : Lib) (s : Service) (now : Int) (tok : String)
    (c : StandardClaims) (hs : jwt.signedClaims L s.secret tok = some c)
    (hexp : c.ExpiresAt = 0 ∨ now ≤ c.ExpiresAt)
    (hiat : c.IssuedAt = 0 ∨ c.IssuedAt ≤ now) (hnbf : c.NotBefore = 0 ∨ c.NotBefore ≤ now)
    (hiss : c.Issuer ≠ "iam-proxy") :
    s.ParseToken L now tok = ("", some "issuer is invalid") := by
  have h1 : jwt.verifyExp c.ExpiresAt now false = true := by
    unfold jwt.verifyExp
    rcases hexp with h | h
    · simp [h]
    · split
      · rfl
      · simpa using h
  have h2 : jwt.verifyIat c.IssuedAt now false = true := by
    unfold jwt.verifyIat
    rcases hiat with h | h
    · simp [h]
    · split
      · rfl
      · simpa using h
  have h3 : jwt.verifyNbf c.NotBefore now false = true := by
    unfold jwt.verifyNbf
    rcases hnbf with h | h
    · simp [h]
    · split
      · rfl
      · simpa using h
  rw [ParseToken_of_signedClaims L s now tok c hs, jwt.Valid_of_verified L c now h1 h2 h3]
  have : c.Issuer ≠ issuer := hiss
  simp [this, invalidIssuer]

theorem C6_witness :
    Example.service.ParseToken Ref.lib 10 Example.foreignToken = ("", some "issuer is invalid") :=
  C6_foreign_issuer_rejected Ref.lib Example.service 10 Example.foreignToken Example.foreign
    (signedClaims_SignedString Ref.lib Ref.lawful .SHA256 _ _) (by decide) (by decide)
    (by decide) (by decide)

/-! ## Base64 -/

theorem decodeChar_encodeChar_std (i : Nat) (h : i < 64) :
    base64.decodeChar base64.encodeStd (base64.encodeChar base64.encodeStd i) = some i := by
  interval_cases i <;> decide

theorem quantumBytes_three (a b c : Nat) (ha : a < 256) (hb : b < 256) (hc : c < 256) :
    base64.quantumBytes [(a * 65536 + b * 256 + c) / 262144 % 64,
      (a * 65536 + b * 256 + c) / 4096 % 64, (a * 65536 + b * 256 + c) / 64 % 64,
      (a * 65536 + b * 256 + c) % 64] = [a, b, c] := by
  simp only [base64.quantumBytes, List.cons.injEq, and_true]
  omega

theorem quantumBytes_two (a b : Nat) (ha : a < 256) (hb : b < 256) :
    base64.quantumBytes [(a * 65536 + b * 256) / 262144 % 64,
      (a * 65536 + b * 256) / 4096 % 64, (a * 65536 + b * 256) / 64 % 64] = [a, b] := by
  simp only [base64.quantumBytes, List.cons.injEq, and_true]
  omega

theorem quantumBytes_one (a : Nat) (ha : a < 256) :
    base64.quantumBytes [(a * 65536) / 262144 % 64, (a * 65536) / 4096 % 64] = [a] := by
  simp only [base64.quantumBytes, List.cons.injEq, and_true]
  omega

theorem decode_encode_std (b : Bytes) :
    (∀ x ∈ b, x < 256) → ∀ si, base64.decode base64.encodeStd
      (base64.encode base64.encodeStd b) si [] = .ok b := by
  induction b using base64.encode.induct base64.encodeStd with
  | case1 => intro _ si; simp [base64.encode, base64.decode, base64.quantumBytes]
  | case2 a =>
    intro h si
    have ha : a < 256 := h a (by simp)
    simp only [base64.encode, base64.decode,
      decodeChar_encodeChar_std _ (Nat.mod_lt _ (by norm_num : 64 > 0))]
    simp [quantumBytes_one a ha]
  | case3 a b =>
    intro h si
    have ha : a < 256 := h a (by simp)
    have hb : b < 256 := h b (by simp)
    simp only [base64.encode, base64.decode,
      decodeChar_encodeChar_std _ (Nat.mod_lt _ (by norm_num : 64 > 0))]
    simp [quantumBytes_two a b ha hb]
  | case4 a b c rest ih =>
    intro h si
    have ha : a < 256 := h a (by simp)
    have hb : b < 256 := h b (by simp)
    have hc : c < 256 := h c (by simp)
    have hr : ∀ x ∈ rest, x < 256 := fun x hx => h x (by simp [hx])
    simp only [base64.encode, base64.decode,
      decodeChar_encodeChar_std _ (Nat.mod_lt _ (by norm_num : 64 > 0))]
    simp [ih hr, quantumBytes_three a b c ha hb hc]

theorem signed_ne_empty (a b : String) : a ++ "." ++ b ≠ "" := by
  intro h
  have := congrArg String.length h
  have h1 : ".".length = 1 := rfl
  simp [String.length_append, h1] at this

/-- C11: for every successful `GenerateToken` call the expiry interval returned is exactly
3600, whatever the client, the registry and the secret are, and both tokens returned are
non-empty strings. -/
theorem C11_expiry_3600_and_tokens_nonempty (L : Lib) (s : Service) (now : Int)
    (random : Bytes) (clientID clientSecret : String)
    (hok : (s.GenerateToken L now random clientID clientSecret).2.2.2 = none) :
    (s.GenerateToken L now random clientID clientSecret).2.2.1 = 3600 ∧
    (s.GenerateToken L now random clientID clientSecret).1 ≠ "" ∧
    (s.GenerateToken L now random clientID clientSecret).2.1 ≠ "" := by
  rcases verifyUser_cases s clientID clientSecret with ⟨entry, _, _, _, _, h5⟩ | ⟨_, msg, hm⟩
  · rw [GenerateToken_of_verified L s now random clientID clientSecret _ h5]
    exact ⟨rfl, signed_ne_empty _ _, signed_ne_empty _ _⟩
  · rw [GenerateToken_of_rejected L s now random clientID clientSecret msg hm] at hok
    simp at hok

theorem C11_witness :
    (Example.service.GenerateToken Ref.lib 1000 [] "c1" "s1").2.2.1 = 3600 ∧
    (Example.service.GenerateToken Ref.lib 1000 [] "c1" "s1").1 ≠ "" ∧
    (Example.service.GenerateToken Ref.lib 1000 [] "c1" "s1").2.1 ≠ "" :=
  C11_expiry_3600_and_tokens_nonempty Ref.lib Example.service 1000 [] "c1" "s1"
    (by rw [GenerateToken_of_verified Ref.lib Example.service 1000 [] "c1" "s1" "A"
      (verifyUser_ok Example.service "c1" "s1" "A" (by decide) (by decide) (by decide))])

/-- C12: `Health` is a total function of registry and secret that never returns an error:
Unavailable with "No client credentials available" when the registry is empty, whatever
the secret; otherwise Degraded with "insecure secret" when the secret is empty; otherwise
Alive with an empty detail. -/
theorem C12_Health_by_registry_then_secret (s : Service) :
    s.Health.2 = none ∧
    (s.IAM = [] → s.Health.1 = ⟨"Unavailable", "No client credentials available"⟩) ∧
    (s.IAM ≠ [] → s.secret = [] → s.Health.1 = ⟨"Degraded", "insecure secret"⟩) ∧
    (s.IAM ≠ [] → s.secret ≠ [] → s.Health.1 = ⟨"Alive", ""⟩) := by
  unfold Service.Health
  by_cases h1 : s.IAM = []
  · simp [h1, health.StatusUnavailable]
  · have h1b : ¬ s.IAM.length = 0 := fun h => h1 (List.length_eq_zero.1 h)
    by_cases h2 : s.secret = []
    · simp [h1, h1b, h2, health.StatusDegraded]
    · have h2b : ¬ s.secret.length = 0 := fun h => h2 (List.length_eq_zero.1 h)
      simp [h1, h1b, h2, h2b, health.StatusAlive]

/-- C13: `Ready` returns no error for every service, whatever `Health` reports for it. -/
theorem C13_Ready_never_fails (s : Service) :
    s.Ready = none ∧
    ((s.Health.1.Status = "Unavailable" ∨ s.Health.1.Status = "Degraded") → s.Ready = none) :=
  ⟨rfl, fun _ => rfl⟩

/-- C17: for every byte sequence `b`, `Base64Decode (Base64Encode b)` succeeds and gives
back exactly `b`. -/
theorem C17_Base64Decode_Base64Encode (b : Bytes) (hb : ∀ x ∈ b, x < 256) :
    Base64Decode (Base64Encode b) = .ok b := by
  simp only [Base64Decode, Base64Encode, base64.RawStdEncoding_DecodeString,
    base64.RawStdEncoding_EncodeToString]
  exact decode_encode_std b hb 0

theorem C17_witness : Base64Decode (Base64Encode [104, 105, 0, 255]) = .ok [104, 105, 0, 255] :=
  C17_Base64Decode_Base64Encode [104, 105, 0, 255] (by decide)

/-! ## Request headers -/

theorem splitSpace_two (a b : String) (ha : ' ' ∉ a.data) (hb : ' ' ∉ b.data) :
    clienthttp.splitSpace (a ++ " " ++ b) = [a, b] := by
  have e : (a ++ " " ++ b).data = a.data ++ ' ' :: b.data := by
    simp [String.data_append]
  simp [clienthttp.splitSpace, e, splitChars_append, splitChars_of_not_mem, ha, hb]

theorem extractToken_insertToken (canon : String → String) (r : clienthttp.Request)
    (key token : String) (hk : ' ' ∉ key.data) (ht : ' ' ∉ token.data) :
    clienthttp.Header.Get canon (clienthttp.insertToken canon r key token).Header key
      = key ++ " " ++ token ∧
    clienthttp.extractToken canon (clienthttp.insertToken canon r key token) key
      = (token, none) := by
  have hg : clienthttp.Header.Get canon (clienthttp.insertToken canon r key token).Header key
      = key ++ " " ++ token := by
    simp [clienthttp.Header.Get, clienthttp.insertToken, clienthttp.Header.Set]
  refine ⟨hg, ?_⟩
  have hl : ¬ (key ++ " " ++ token).length = 0 := by
    have h1 : " ".length = 1 := rfl
    simp [String.length_append, h1]
  unfold clienthttp.extractToken
  simp only [hg, hl, if_false, splitSpace_two key token hk ht]
  simp

/-- C18: extraction undoes insertion of a header token: for every token without a space,
`ExtractAccessToken` after `InsertAccessToken` on the same request returns the token and
no error, and so does `ExtractIdentityToken` after `InsertIdentityToken`; the header value
written is the header name, one space, then the token. -/
theorem C18_extract_after_insert (canon : String → String) (r : clienthttp.Request)
    (token : String) (ht : ' ' ∉ token.data) :
    clienthttp.ExtractAccessToken canon (clienthttp.InsertAccessToken canon r token)
      = (token, none) ∧
    clienthttp.ExtractIdentityToken canon (clienthttp.InsertIdentityToken canon r token)
      = (token, none) ∧
    clienthttp.Header.Get canon (clienthttp.InsertAccessToken canon r token).Header
      "Authorization" = "Authorization" ++ " " ++ token ∧
    clienthttp.Header.Get canon (clienthttp.InsertIdentityToken canon r token).Header
      "Identity" = "Identity" ++ " " ++ token := by
  have h1 := extractToken_insertToken canon r clienthttp.AuthorizationHeaderKey token
    (by decide) ht
  have h2 := extractToken_insertToken canon r clienthttp.IdentityHeaderKey token
    (by decide) ht
  exact ⟨h1.2, h2.2, h1.1, h2.1⟩

theorem C18_witness :
    clienthttp.ExtractAccessToken id (clienthttp.InsertAccessToken id ⟨none⟩ "token")
      = ("token", none) ∧
    clienthttp.ExtractIdentityToken id (clienthttp.InsertIdentityToken id ⟨none⟩ "token")
      = ("token", none) ∧
    clienthttp.Header.Get id (clienthttp.InsertAccessToken id ⟨none⟩ "token").Header
      "Authorization" = "Authorization" ++ " " ++ "token" ∧
    clienthttp.Header.Get id (clienthttp.InsertIdentityToken id ⟨none⟩ "token").Header
      "Identity" = "Identity" ++ " " ++ "token" :=
  C18_extract_after_insert id ⟨none⟩ "token" (by decide)

/-- C19: `extractToken` fails with "token not present in header" when the header value is
absent or empty, with "bad header format" when the value does not split on the space into
exactly two parts, that is when it does not hold exactly one space, and in every other
case returns the second part without error. -/
theorem C19_extractToken_cases (canon : String → String) (r : clienthttp.Request)
    (key : String) :
    (clienthttp.Header.Get canon r.Header key = "" →
      clienthttp.extractToken canon r key = ("", some "token not present in header")) ∧
    (clienthttp.Header.Get canon r.Header key ≠ "" →
      (clienthttp.splitSpace (clienthttp.Header.Get canon r.Header key)).length ≠ 2 →
      clienthttp.extractToken canon r key = ("", some "bad header format")) ∧
    (clienthttp.Header.Get canon r.Header key ≠ "" →
      (clienthttp.splitSpace (clienthttp.Header.Get canon r.Header key)).length = 2 →
      clienthttp.extractToken canon r key =
        ((clienthttp.splitSpace (clienthttp.Header.Get canon r.Header key)).getD 1 "", none)) ∧
    ((clienthttp.splitSpace (clienthttp.Header.Get canon r.Header key)).length = 2 ↔
      (clienthttp.Header.Get canon r.Header key).data.count ' ' = 1) := by
  refine ⟨?_, ?_, ?_, ?_⟩
  · intro h
    simp [clienthttp.extractToken, h]
  · intro h hl
    have : ¬ (clienthttp.Header.Get canon r.Header key).length = 0 :=
      fun e => h ((length_eq_zero_iff _).1 e)
    simp [clienthttp.extractToken, this, hl]
  · intro h hl
    have : ¬ (clienthttp.Header.Get canon r.Header key).length = 0 :=
      fun e => h ((length_eq_zero_iff _).1 e)
    simp [clienthttp.extractToken, this, hl]
  · simp only [clienthttp.splitSpace, List.length_map, splitChars_length]
    omega

/-! ## The reference JSON primitives are lawful -/

namespace Ref

theorem bytesToNats_digits (ds : List Nat) (hds : ∀ d ∈ ds, d < 10) (acc : List Nat)
    (rest : Bytes) :
    bytesToNats (ds ++ 10 :: rest) acc = Nat.ofDigits 10 (acc ++ ds) :: bytesToNats rest [] := by
  induction ds generalizing acc with
  | nil => simp [bytesToNats]
  | cons d ds ih =>
    have hd : d ≠ 10 := by have := hds d (by simp); omega
    have := ih (fun x hx => hds x (by simp [hx])) (acc ++ [d])
    simp [bytesToNats, hd, this]

theorem bytesToNats_natsToBytes (ns : List Nat) : bytesToNats (natsToBytes ns) [] = ns := by
  induction ns with
  | nil => simp [natsToBytes, bytesToNats]
  | cons n ns ih =>
    have h := bytesToNats_digits (Nat.digits 10 n)
      (fun d hd => Nat.digits_lt_base (by norm_num) hd) [] (natsToBytes ns)
    simp only [natsToBytes, List.flatMap_cons, List.append_assoc, List.singleton_append] at h ih ⊢
    rw [h, ih]
    simp [Nat.ofDigits_digits]

theorem natsToBytes_lt (ns : List Nat) (x : Nat) (hx : x ∈ natsToBytes ns) : x < 256 := by
  simp only [natsToBytes, List.mem_flatMap, List.mem_append, List.mem_singleton] at hx
  obtain ⟨n, _, h | h⟩ := hx
  · have := Nat.digits_lt_base (by norm_num : 1 < 10) h
    omega
  · omega

theorem getMembers_marshal (r : IAM) (tail : List Nat) :
    getMembers r.length ((r.flatMap fun e =>
      putString e.1 ++ (putString e.2.ClientSecret ++ putString e.2.AppName)) ++ tail)
      = some (r.map memberOf) := by
  induction r with
  | nil => simp [getMembers]
  | cons e r ih =>
    simp only [List.length_cons, List.flatMap_cons, List.append_assoc, getMembers,
      getString_putString, List.map_cons, memberOf]
    simp [getString_putString, ih, memberOf]

theorem parseIAM_marshalIAM (r : IAM) : parseIAM (marshalIAM r) = .ok (r.map memberOf) := by
  have h := getMembers_marshal r []
  simp only [List.append_nil] at h
  simp only [parseIAM, marshalIAM, bytesToNats_natsToBytes, h]

theorem json_lawful : json.Lawful where
  marshal_bytes _ x hx := natsToBytes_lt _ x hx
  parse_marshal _ _ := ⟨_, parseIAM_marshalIAM _, List.Perm.refl _⟩
  parse_empty := ⟨"unexpected end of JSON input", rfl⟩

end Ref

/-! ## The registry built from the credentials -/

theorem decodeSecret_memberOf (e : ClientID × Secret) : decodeSecret (memberOf e).2 = e.2 := by
  simp [decodeSecret, memberOf]

theorem lookup_filter_ne (m : IAM) (k id : ClientID) (h : id ≠ k) :
    (m.filter fun e => e.1 ≠ k).lookup id = m.lookup id := by
  induction m with
  | nil => rfl
  | cons e m ih =>
    obtain ⟨a, b⟩ := e
    rw [List.filter_cons]
    by_cases ha : a = k
    · have hd : decide ((a, b).1 ≠ k) = false := by simp [ha]
      have hia : (id == a) = false := by simp [ha, h]
      rw [hd]
      simp only [Bool.false_eq_true, if_false]
      rw [ih, List.lookup_cons, hia]
    · have hd : decide ((a, b).1 ≠ k) = true := by simp [ha]
      rw [hd]
      simp only [if_true]
      rw [List.lookup_cons, List.lookup_cons, ih]

theorem lookup_setEntry_self (m : IAM) (k : ClientID) (v : Secret) :
    (setEntry m k v).lookup k = some v := by
  simp [setEntry, List.lookup_cons]

theorem lookup_setEntry_ne (m : IAM) (k id : ClientID) (v : Secret) (h : id ≠ k) :
    (setEntry m k v).lookup id = m.lookup id := by
  have hik : (id == k) = false := by simp [h]
  simp only [setEntry, List.lookup_cons, hik]
  exact lookup_filter_ne m k id h

/-- After the assignment `m[k] = v` the map has one entry under `k`. -/
theorem count_setEntry_self (m : IAM) (k : ClientID) (v : Secret) :
    ((setEntry m k v).filter fun e => e.1 = k).length = 1 := by
  simp [setEntry, List.filter_cons, List.filter_filter]

theorem count_setEntry_ne (m : IAM) (k id : ClientID) (v : Secret) (h : id ≠ k) :
    ((setEntry m k v).filter fun e => e.1 = id).length
      = (m.filter fun e => e.1 = id).length := by
  have hki : ¬ k = id := fun e => h e.symm
  simp only [setEntry, List.filter_cons, hki, decide_False, List.filter_filter]
  simp only [Bool.false_eq_true, if_false]
  congr 1
  apply List.filter_congr
  intro e _
  by_cases he : e.1 = id
  · simp [he, h]
  · simp [he]

theorem assignMembers_not_mem (members : List Member) (m : IAM) (id : ClientID)
    (h : id ∉ members.map Prod.fst) :
    (assignMembers m members).lookup id = m.lookup id ∧
    ((assignMembers m members).filter fun e => e.1 = id).length
      = (m.filter fun e => e.1 = id).length := by
  induction members generalizing m with
  | nil => exact ⟨rfl, rfl⟩
  | cons x xs ih =>
    have hx : id ≠ x.1 := fun e => h (by simp [e])
    have hxs : id ∉ xs.map Prod.fst := fun e => h (by simp at e ⊢; exact Or.inr e)
    have := ih (setEntry m x.1 (decodeSecret x.2)) hxs
    simp only [assignMembers, List.foldl_cons] at this ⊢
    rw [this.1, this.2, lookup_setEntry_ne _ _ _ _ hx, count_setEntry_ne _ _ _ _ hx]
    exact ⟨rfl, rfl⟩

theorem assignMembers_append (m : IAM) (xs ys : List Member) :
    assignMembers m (xs ++ ys) = assignMembers (assignMembers m xs) ys := by
  simp [assignMembers, List.foldl_append]

theorem assignMembers_last (pre post : List Member) (id : ClientID)
    (fields : List (SecretField × String)) (h : id ∉ post.map Prod.fst) :
    (assignMembers [] (pre ++ (id, fields) :: post)).lookup id = some (decodeSecret fields) ∧
    ((assignMembers [] (pre ++ (id, fields) :: post)).filter fun e => e.1 = id).length = 1 := by
  have e : pre ++ (id, fields) :: post = (pre ++ [(id, fields)]) ++ post := by simp
  rw [e, assignMembers_append, assignMembers_append]
  have := assignMembers_not_mem post (assignMembers (assignMembers [] pre) [(id, fields)]) id h
  rw [this.1, this.2]
  simp only [assignMembers, List.foldl_cons, List.foldl_nil]
  exact ⟨lookup_setEntry_self _ _ _, count_setEntry_self _ _ _⟩

theorem Base64Decode_Base64Encode (b : Bytes) (hb : ∀ x ∈ b, x < 256) :
    Base64Decode (Base64Encode b) = .ok b := by
  simp only [Base64Decode, Base64Encode, base64.RawStdEncoding_DecodeString,
    base64.RawStdEncoding_EncodeToString]
  exact decode_encode_std b hb 0

theorem filter_ne_of_not_mem (m : IAM) (k : ClientID) (h : k ∉ m.map Prod.fst) :
    (m.filter fun e => e.1 ≠ k) = m := by
  apply List.filter_eq_self.2
  intro e he
  have : e.1 ≠ k := fun eq => h (List.mem_map.2 ⟨e, he, eq⟩)
  simpa using this

theorem assignMembers_nodup (members : List Member) (m : IAM)
    (hn : (members.map Prod.fst).Nodup)
    (hd : ∀ k ∈ members.map Prod.fst, k ∉ m.map Prod.fst) :
    assignMembers m members
      = (members.map fun x => (x.1, decodeSecret x.2)).reverse ++ m := by
  induction members generalizing m with
  | nil => simp [assignMembers]
  | cons x xs ih =>
    have hx : x.1 ∉ m.map Prod.fst := hd x.1 (by simp)
    have hn2 : (xs.map Prod.fst).Nodup := (List.nodup_cons.1 hn).2
    have hx2 : x.1 ∉ xs.map Prod.fst := (List.nodup_cons.1 hn).1
    have hs : setEntry m x.1 (decodeSecret x.2) = (x.1, decodeSecret x.2) :: m := by
      simp only [setEntry, filter_ne_of_not_mem m x.1 hx]
    have hd2 : ∀ k ∈ xs.map Prod.fst, k ∉ ((x.1, decodeSecret x.2) :: m).map Prod.fst := by
      intro k hk hmem
      simp only [List.map_cons, List.mem_cons] at hmem
      rcases hmem with e | e
      · exact hx2 (e ▸ hk)
      · exact hd k (by simp only [List.map_cons, List.mem_cons]; exact Or.inr hk) e
    have := ih ((x.1, decodeSecret x.2) :: m) hn2 hd2
    simp only [assignMembers, List.foldl_cons] at this ⊢
    rw [hs, this]
    simp

theorem lookup_eq_some_iff_mem (m : IAM) (hn : (m.map Prod.fst).Nodup) (id : ClientID)
    (v : Secret) : m.lookup id = some v ↔ (id, v) ∈ m := by
  induction m with
  | nil => simp
  | cons e m ih =>
    obtain ⟨a, b⟩ := e
    have hn2 : (m.map Prod.fst).Nodup := (List.nodup_cons.1 hn).2
    have ha : a ∉ m.map Prod.fst := (List.nodup_cons.1 hn).1
    rw [List.lookup_cons]
    by_cases hia : id = a
    · have hb : (id == a) = true := by simp [hia]
      rw [hb]
      constructor
      · intro h; cases h; simp [hia]
      · intro h
        rcases List.mem_cons.1 h with e | e
        · cases e; rfl
        · exact absurd (List.mem_map.2 ⟨(id, v), e, hia⟩) ha
    · have hb : (id == a) = false := by simp [hia]
      rw [hb]
      simp only [ih hn2, List.mem_cons, Prod.mk.injEq, hia, false_and, false_or]

theorem lookup_eq_of_perm (m1 m2 : IAM) (hn : (m2.map Prod.fst).Nodup) (hp : m1.Perm m2)
    (id : ClientID) : m1.lookup id = m2.lookup id := by
  have hn1 : (m1.map Prod.fst).Nodup := (hp.map Prod.fst).nodup_iff.2 hn
  cases h1 : m1.lookup id with
  | some v =>
    have := (lookup_eq_some_iff_mem m2 hn id v).2
      (hp.mem_iff.1 ((lookup_eq_some_iff_mem m1 hn1 id v).1 h1))
    rw [this]
  | none =>
    cases h2 : m2.lookup id with
    | none => rfl
    | some v =>
      have := (lookup_eq_some_iff_mem m1 hn1 id v).2
        (hp.mem_iff.2 ((lookup_eq_some_iff_mem m2 hn id v).1 h2))
      rw [this] at h1
      cases h1

theorem assignMembers_perm (r : IAM) (members : List Member)
    (hn : (r.map Prod.fst).Nodup) (hp : members.Perm (r.map memberOf)) :
    (assignMembers [] members).Perm r := by
  have hk : (members.map Prod.fst).Perm (r.map Prod.fst) := by
    have := hp.map Prod.fst
    simpa [List.map_map, Function.comp_def, memberOf] using this
  have hn1 : (members.map Prod.fst).Nodup := hk.nodup_iff.2 hn
  rw [assignMembers_nodup members [] hn1 (by simp), List.append_nil]
  refine (List.reverse_perm _).trans ?_
  have := hp.map fun x => (x.1, decodeSecret x.2)
  refine this.trans ?_
  rw [List.map_map]
  have e : ((fun x : Member => (x.1, decodeSecret x.2)) ∘ memberOf) = id := by
    funext x
    have := decodeSecret_memberOf x
    simp only [memberOf] at this
    simp only [Function.comp, memberOf, this, id]
  rw [e, List.map_id]

/-- C14: for every registry `r`, `New` from the credentials text
`Base64Encode (json.Marshal r)` succeeds and the registry of the service is `r`: the same
entries, the same entry under every client id, the same size. -/
theorem C14_New_of_encoded_registry (J : Json) (hJ : J.Lawful) (r : IAM)
    (hr : (r.map Prod.fst).Nodup) (secret : String) :
    ∃ svc, New J ⟨Base64Encode (J.marshalIAM r), secret⟩ = (some svc, none) ∧
      svc.IAM.Perm r ∧ (∀ id, svc.IAM.lookup id = r.lookup id) ∧
      svc.IAM.length = r.length := by
  obtain ⟨members, hparse, hperm⟩ := hJ.parse_marshal r hr
  have hb : Base64Decode (Base64Encode (J.marshalIAM r)) = .ok (J.marshalIAM r) := by
    simp only [Base64Decode, Base64Encode, base64.RawStdEncoding_DecodeString,
      base64.RawStdEncoding_EncodeToString]
    exact decode_encode_std _ (hJ.marshal_bytes r) 0
  have hp := assignMembers_perm r members hr hperm
  refine ⟨⟨assignMembers [] members, utf8 secret⟩, ?_, hp, ?_, hp.length_eq⟩
  · simp only [New, hb, unmarshalIAM, hparse]
  · exact lookup_eq_of_perm _ r hr hp

theorem C14_witness :
    ∃ svc, New Ref.json ⟨Base64Encode (Ref.json.marshalIAM Example.registry), "k"⟩
        = (some svc, none) ∧
      svc.IAM.Perm Example.registry ∧
      (∀ id, svc.IAM.lookup id = Example.registry.lookup id) ∧
      svc.IAM.length = Example.registry.length :=
  C14_New_of_encoded_registry Ref.json Ref.json_lawful Example.registry (by decide) "k"

/-- C15: construction fails whenever the credentials text cannot be decoded: when it is
not unpadded standard base64, or when its decoded bytes are not a JSON text of the
registry, `New` returns an error and no service. -/
theorem C15_New_fails_on_undecodable_users (J : Json) (c : config.IAM)
    (h : (∃ e, Base64Decode c.Users = .error e) ∨
      ∃ b e, Base64Decode c.Users = .ok b ∧ J.parseIAM b = .error e) :
    ∃ msg, New J c = (none, some msg) := by
  rcases h with ⟨e, he⟩ | ⟨b, e, hb, he⟩
  · exact ⟨"could not decode iam users credentials: " ++ e, by simp only [New, he]⟩
  · exact ⟨"could not decode IAM information: " ++ e, by simp only [New, hb, unmarshalIAM, he]⟩

theorem Base64Decode_empty : Base64Decode "" = .ok [] := rfl

theorem Base64Decode_bad_json : ∃ e, Base64Decode "{,}" = .error e :=
  ⟨_, rfl⟩

theorem C15_witness :
    (∃ msg, New Ref.json ⟨"", "k"⟩ = (none, some msg)) ∧
    (∃ msg, New Ref.json ⟨"{,}", "k"⟩ = (none, some msg)) :=
  ⟨C15_New_fails_on_undecodable_users Ref.json ⟨"", "k"⟩
      (Or.inr ⟨[], _, Base64Decode_empty, rfl⟩),
    C15_New_fails_on_undecodable_users Ref.json ⟨"{,}", "k"⟩ (Or.inl Base64Decode_bad_json)⟩

theorem lastValue_append (field : SecretField) (fields : List (SecretField × String))
    (x : SecretField × String) :
    lastValue field (fields ++ [x]) = if x.1 = field then x.2 else lastValue field fields := by
  unfold lastValue
  rw [List.filter_append]
  by_cases h : x.1 = field
  · simp [List.filter_cons, h]
  · simp [List.filter_cons, h]

theorem decodeSecret_eq_lastValue (fields : List (SecretField × String)) :
    decodeSecret fields = ⟨lastValue .client_secret fields, lastValue .app_name fields⟩ := by
  induction fields using List.reverseRecOn with
  | nil => rfl
  | append_singleton fs x ih =>
    have hstep : decodeSecret (fs ++ [x]) =
        (match x.1 with
        | .client_secret => ⟨x.2, (decodeSecret fs).AppName⟩
        | .app_name => ⟨(decodeSecret fs).ClientSecret, x.2⟩) := by
      simp [decodeSecret, List.foldl_append]
    rw [hstep, lastValue_append, lastValue_append, ih]
    obtain ⟨f, v⟩ := x
    cases f <;> simp

/-- C16: when a client id occurs more than once among the members of the decoded
credentials, the registry built by `New` has exactly one entry under that id, and it holds
the secret and the app name of the last occurrence alone: a field the last occurrence does
not give is empty, whatever the earlier occurrences gave; no error is raised. -/
theorem C16_last_occurrence_wins (J : Json) (c : config.IAM) (b : Bytes)
    (pre post : List Member) (id : ClientID) (fields : List (SecretField × String))
    (hb : Base64Decode c.Users = .ok b)
    (hp : J.parseIAM b = .ok (pre ++ (id, fields) :: post))
    (hlast : id ∉ post.map Prod.fst) :
    ∃ svc, New J c = (some svc, none) ∧
      (svc.IAM.filter fun e => e.1 = id).length = 1 ∧
      svc.IAM.lookup id
        = some ⟨lastValue .client_secret fields, lastValue .app_name fields⟩ ∧
      (∀ sec app : String, fields = [(.client_secret, sec), (.app_name, app)] →
        svc.IAM.lookup id = some ⟨sec, app⟩) ∧
      (∀ sec : String, fields = [(.client_secret, sec)] →
        svc.IAM.lookup id = some ⟨sec, ""⟩) ∧
      (∀ app : String, fields = [(.app_name, app)] →
        svc.IAM.lookup id = some ⟨"", app⟩) := by
  have h := assignMembers_last pre post id fields hlast
  have hl : (assignMembers [] (pre ++ (id, fields) :: post)).lookup id
      = some ⟨lastValue .client_secret fields, lastValue .app_name fields⟩ := by
    rw [h.1, decodeSecret_eq_lastValue]
  refine ⟨⟨assignMembers [] (pre ++ (id, fields) :: post), utf8 c.Secret⟩,
    by simp only [New, hb, unmarshalIAM, hp], h.2, hl, ?_, ?_, ?_⟩
  · intro sec app hf
    rw [hl, hf]
    rfl
  · intro sec hf
    rw [hl, hf]
    rfl
  · intro app hf
    rw [hl, hf]
    rfl

theorem C16_witness :
    ∃ svc, New Ref.json ⟨Example.duplicateUsers, "k"⟩ = (some svc, none) ∧
      (svc.IAM.filter fun e => e.1 = "c1").length = 1 ∧
      svc.IAM.lookup "c1" = some ⟨"s3", "C"⟩ := by
  obtain ⟨svc, h1, h2, _, h4, _⟩ := C16_last_occurrence_wins Ref.json
    ⟨Example.duplicateUsers, "k"⟩ _
    [("c1", [(.client_secret, "s1"), (.app_name, "A")]),
     ("c2", [(.client_secret, "s2"), (.app_name, "B")])] [] "c1"
    [(.client_secret, "s3"), (.app_name, "C")]
    (Base64Decode_Base64Encode _ (Ref.natsToBytes_lt _))
    (Ref.parseIAM_marshalIAM _) (by decide)
  exact ⟨svc, h1, h2, h4 "s3" "C" rfl⟩

theorem New_empty_users (J : Json) (hJ : J.Lawful) (secret : String) :
    ∃ msg, New J ⟨"", secret⟩ = (none, some msg) := by
  obtain ⟨e, he⟩ := hJ.parse_empty
  exact ⟨"could not decode IAM information: " ++ e, by
    simp only [New, Base64Decode_empty, unmarshalIAM, he]⟩

theorem New_bad_json_users (J : Json) (secret : String) :
    ∃ msg, New J ⟨"{,}", secret⟩ = (none, some msg) := by
  obtain ⟨e, he⟩ := Base64Decode_bad_json
  exact ⟨"could not decode iam users credentials: " ++ e, by simp only [New, he]⟩

/-! ## Decoding a token without verifying it -/

theorem encodeChar_url_ne_dot (i : Nat) : base64.encodeChar base64.encodeURL i ≠ '.' := by
  have h : i % 64 < 64 := Nat.mod_lt _ (by norm_num)
  unfold base64.encodeChar
  generalize i % 64 = j at h
  interval_cases j <;> decide

theorem encode_url_no_dot (b : Bytes) : '.' ∉ base64.encode base64.encodeURL b := by
  induction b using base64.encode.induct base64.encodeURL with
  | case1 => simp [base64.encode]
  | case2 a => simp [base64.encode, (encodeChar_url_ne_dot _).symm]
  | case3 a b => simp [base64.encode, (encodeChar_url_ne_dot _).symm]
  | case4 a b c rest ih => simp [base64.encode, (encodeChar_url_ne_dot _).symm, ih]

/-- With the segment encoding of the jwt package, `DecodeToken` hands the base64url text of
the claims to the decoder of the standard alphabet. -/
theorem DecodeToken_SignedString (f : Bytes → Except String StandardClaims) (L : Lib)
    (henc : L.encodeSegment = base64.RawURLEncoding_EncodeToString) (h : HashAlg)
    (c : StandardClaims) (key : Bytes) :
    DecodeToken f (jwt.SignedString L h c key).1 =
      match base64.RawStdEncoding_DecodeString
        (base64.RawURLEncoding_EncodeToString (L.marshalClaims c)) with
      | .error _ => (none, some "could not decode token part")
      | .ok b =>
        match f b with
        | .error _ => (none, some "could not unmarshal claims")
        | .ok m => (some m, none) := by
  have hs := splitDot_three
    (base64.RawURLEncoding_EncodeToString (L.marshalHeader (jwt.SigningMethod.Alg (.HMAC h))))
    (base64.RawURLEncoding_EncodeToString (L.marshalClaims c))
    (base64.RawURLEncoding_EncodeToString
      (hmacSum L h key (utf8 (jwt.SigningString L (.HMAC h) c))))
    (encode_url_no_dot _) (encode_url_no_dot _) (encode_url_no_dot _)
  simp only [DecodeToken, jwt.SignedString, jwt.SigningString, jwt.signHMAC, henc] at hs ⊢
  rw [hs]
  simp

/-- The identity token of the app name `?`: for every instance of the primitives that
encodes segments as the jwt package does and writes the JSON text of the identity claims
as `json.Marshal` does, `DecodeToken` rejects the identity token `GenerateToken` returns. -/
theorem DecodeToken_GenerateToken_question_mark (f : Bytes → Except String StandardClaims)
    (L : Lib) (henc : L.encodeSegment = base64.RawURLEncoding_EncodeToString)
    (hjson : L.marshalClaims (identityClaims "?")
      = utf8 "\x7b\"iss\":\"iam-proxy\",\"sub\":\"?\"\x7d")
    (s : Service) (now : Int) (random : Bytes) (clientID clientSecret : String)
    (hid : clientID ≠ "") (hsec : clientSecret ≠ "")
    (hreg : s.IAM.lookup clientID = some ⟨clientSecret, "?"⟩) :
    DecodeToken f (s.GenerateToken L now random clientID clientSecret).2.1
      = (none, some "could not decode token part") := by
  rw [GenerateToken_of_verified L s now random clientID clientSecret "?"
    (verifyUser_ok s clientID clientSecret "?" hid hsec hreg)]
  show DecodeToken f (jwt.SignedString L .SHA512 (identityClaims "?") s.secret).1 = _
  rw [DecodeToken_SignedString f L henc, hjson]
  rfl

/-- C20, at the failing input: the claims of the identity token of the app name `?` are the
JSON text below, whose base64url form holds an underscore, and `DecodeToken` rejects the
token the service emits for it, whatever the JSON decoder is. -/
theorem C20_DecodeToken_rejects_question_mark (f : Bytes → Except String StandardClaims) :
    base64.RawURLEncoding_EncodeToString (utf8 "\x7b\"iss\":\"iam-proxy\",\"sub\":\"?\"\x7d")
      = "eyJpc3MiOiJpYW0tcHJveHkiLCJzdWIiOiI_In0" ∧
    (splitDot Example.questionMarkToken).getD 1 ""
      = "eyJpc3MiOiJpYW0tcHJveHkiLCJzdWIiOiI_In0" ∧
    DecodeToken f Example.questionMarkToken = (none, some "could not decode token part") := by
  refine ⟨by rfl, by rfl, ?_⟩
  rfl

/-! ## The last claims -/

theorem DecodeToken_of_two_segments (f : Bytes → Except String StandardClaims) (t : String)
    (h : 2 ≤ (splitDot t).length) :
    DecodeToken f t =
      match base64.RawStdEncoding_DecodeString ((splitDot t).getD 1 "") with
      | .error _ => (none, some "could not decode token part")
      | .ok b =>
        match f b with
        | .error _ => (none, some "could not unmarshal claims")
        | .ok m => (some m, none) := by
  have hn : ¬ (splitDot t).length < 2 := by omega
  simp only [DecodeToken, hn, if_false]

/-- C21: `DecodeToken` does not verify a token: two token strings with at least two
segments and the same second segment give the same result, whatever their other segments
are, and the error is "token format is wrong" exactly when the string has fewer than two
dot-separated segments. -/
theorem C21_DecodeToken_reads_second_segment_only (f : Bytes → Except String StandardClaims)
    (t1 t2 : String) (h1 : 2 ≤ (splitDot t1).length) (h2 : 2 ≤ (splitDot t2).length)
    (hseg : (splitDot t1).getD 1 "" = (splitDot t2).getD 1 "") :
    DecodeToken f t1 = DecodeToken f t2 ∧
    ∀ t : String, (DecodeToken f t).2 = some "token format is wrong" ↔
      (splitDot t).length < 2 := by
  refine ⟨?_, ?_⟩
  · rw [DecodeToken_of_two_segments f t1 h1, DecodeToken_of_two_segments f t2 h2, hseg]
  · intro t
    constructor
    · intro h
      by_contra hn
      rw [DecodeToken_of_two_segments f t (by omega)] at h
      split at h
      · revert h; decide
      · split at h
        · revert h; decide
        · cases h
    · intro h
      simp [DecodeToken, h]

theorem C21_witness :
    DecodeToken Ref.unmarshalClaims "h.QUJD.s" = DecodeToken Ref.unmarshalClaims "x.QUJD" ∧
    ∀ t : String, (DecodeToken Ref.unmarshalClaims t).2 = some "token format is wrong" ↔
      (splitDot t).length < 2 :=
  C21_DecodeToken_reads_second_segment_only Ref.unmarshalClaims "h.QUJD.s" "x.QUJD"
    (by decide) (by decide) (by decide)

/-- C22: the result of `ParseToken` depends on the service only through its signing secret:
two services with equal secrets and any registries return the same subject and the same
error for every token string, so the tokens one of them issues are accepted by the other. -/
theorem C22_ParseToken_depends_on_secret_only (L : Lib) (s1 s2 : Service)
    (hsec : s1.secret = s2.secret) :
    (∀ (now : Int) (tok : String), s1.ParseToken L now tok = s2.ParseToken L now tok) ∧
    (L.Lawful → ∀ (now now2 : Int) (random : Bytes) (clientID clientSecret : String),
      (s1.GenerateToken L now random clientID clientSecret).2.2.2 = none →
      (s2.ParseToken L now2 (s1.GenerateToken L now random clientID clientSecret).2.1).2 = none ∧
      (now2 < now + 3600 →
        s2.ParseToken L now2 (s1.GenerateToken L now random clientID clientSecret).1
          = ("", none))) := by
  have hk : s1.keyFunc = s2.keyFunc := by
    funext token
    simp only [Service.keyFunc, hsec]
  have hall : ∀ (now : Int) (tok : String), s1.ParseToken L now tok = s2.ParseToken L now tok := by
    intro now tok
    simp only [Service.ParseToken, hk]
  refine ⟨hall, ?_⟩
  intro hL now now2 random clientID clientSecret hok
  rcases verifyUser_cases s1 clientID clientSecret with ⟨entry, _, _, _, _, h5⟩ | ⟨_, msg, hm⟩
  · rw [GenerateToken_of_verified L s1 now random clientID clientSecret _ h5]
    refine ⟨?_, ?_⟩
    · rw [← hall, ParseToken_of_signedClaims L s1 now2 _ _ (signedClaims_SignedString L hL _ _ _),
        Valid_identityClaims]
      simp [identityClaims]
    · intro hb
      rw [← hall, ParseToken_of_signedClaims L s1 now2 _ _ (signedClaims_SignedString L hL _ _ _),
        Valid_accessClaims L now now2 random (le_of_lt hb)]
      simp [accessClaims]
  · rw [GenerateToken_of_rejected L s1 now random clientID clientSecret msg hm] at hok
    simp at hok

theorem C22_witness :
    (∀ (now : Int) (tok : String),
      Example.service.ParseToken Ref.lib now tok
        = Service.ParseToken Ref.lib ⟨[], [107]⟩ now tok) ∧
    (Ref.lib.Lawful → ∀ (now now2 : Int) (random : Bytes) (clientID clientSecret : String),
      (Example.service.GenerateToken Ref.lib now random clientID clientSecret).2.2.2 = none →
      (Service.ParseToken Ref.lib ⟨[], [107]⟩ now2
        (Example.service.GenerateToken Ref.lib now random clientID clientSecret).2.1).2 = none ∧
      (now2 < now + 3600 →
        Service.ParseToken Ref.lib ⟨[], [107]⟩ now2
          (Example.service.GenerateToken Ref.lib now random clientID clientSecret).1
          = ("", none))) :=
  C22_ParseToken_depends_on_secret_only Ref.lib Example.service ⟨[], [107]⟩ rfl

/-- C23: access tokens of different calls do not collide: two successful `GenerateToken`
calls on a service whose generated ids differ return different access tokens, also for
the same client at the same clock instant. -/
theorem C23_access_tokens_differ_with_ids (L : Lib) (hL : L.Lawful) (s : Service)
    (now1 now2 : Int) (random1 random2 : Bytes) (id1 secret1 id2 secret2 : String)
    (hok1 : (s.GenerateToken L now1 random1 id1 secret1).2.2.2 = none)
    (hok2 : (s.GenerateToken L now2 random2 id2 secret2).2.2.2 = none)
    (hids : uuid.String (uuid.NewRandom random1) ≠ uuid.String (uuid.NewRandom random2)) :
    (s.GenerateToken L now1 random1 id1 secret1).1
      ≠ (s.GenerateToken L now2 random2 id2 secret2).1 := by
  rcases verifyUser_cases s id1 secret1 with ⟨e1, _, _, _, _, h1⟩ | ⟨_, msg, hm⟩
  · rcases verifyUser_cases s id2 secret2 with ⟨e2, _, _, _, _, h2⟩ | ⟨_, msg, hm⟩
    · rw [GenerateToken_of_verified L s now1 random1 id1 secret1 _ h1,
        GenerateToken_of_verified L s now2 random2 id2 secret2 _ h2]
      intro heq
      have c1 := signedClaims_SignedString L hL .SHA512 (accessClaims now1 random1) s.secret
      have c2 := signedClaims_SignedString L hL .SHA512 (accessClaims now2 random2) s.secret
      simp only at heq
      rw [heq, c2] at c1
      have := congrArg StandardClaims.Id (Option.some.inj c1)
      exact hids this.symm
    · rw [GenerateToken_of_rejected L s now2 random2 id2 secret2 msg hm] at hok2
      simp at hok2
  · rw [GenerateToken_of_rejected L s now1 random1 id1 secret1 msg hm] at hok1
    simp at hok1

theorem C23_witness :
    (Example.service.GenerateToken Ref.lib 1000 [] "c1" "s1").1
      ≠ (Example.service.GenerateToken Ref.lib 1000 [1] "c1" "s1").1 :=
  C23_access_tokens_differ_with_ids Ref.lib Ref.lawful Example.service 1000 1000 [] [1]
    "c1" "s1" "c1" "s1"
    (by rw [GenerateToken_of_verified Ref.lib Example.service 1000 [] "c1" "s1" "A"
      (verifyUser_ok Example.service "c1" "s1" "A" (by decide) (by decide) (by decide))])
    (by rw [GenerateToken_of_verified Ref.lib Example.service 1000 [1] "c1" "s1" "A"
      (verifyUser_ok Example.service "c1" "s1" "A" (by decide) (by decide) (by decide))])
    (by decide)

theorem GenerateToken_identity_constant (L : Lib) (s : Service) (now1 now2 : Int)
    (random1 random2 : Bytes) (clientID clientSecret : String) :
    (s.GenerateToken L now1 random1 clientID clientSecret).2.1
      = (s.GenerateToken L now2 random2 clientID clientSecret).2.1 := by
  rcases verifyUser_cases s clientID clientSecret with ⟨entry, _, _, _, _, h5⟩ | ⟨_, msg, hm⟩
  · rw [GenerateToken_of_verified L s now1 random1 clientID clientSecret _ h5,
      GenerateToken_of_verified L s now2 random2 clientID clientSecret _ h5]
  · rw [GenerateToken_of_rejected L s now1 random1 clientID clientSecret msg hm,
      GenerateToken_of_rejected L s now2 random2 clientID clientSecret msg hm]

/-- C24, the counterexample: the identity claims of the app `A` carry neither an id nor an
expiry, and two successful calls at different instants with different random bytes return
the same identity token. -/
theorem C24_counterexample :
    (identityClaims "A").Id = "" ∧ (identityClaims "A").ExpiresAt = 0 ∧
    (Example.service.GenerateToken Ref.lib 1000 [] "c1" "s1").2.2.2 = none ∧
    (Example.service.GenerateToken Ref.lib 2000 [1] "c1" "s1").2.2.2 = none ∧
    (Example.service.GenerateToken Ref.lib 1000 [] "c1" "s1").2.1
      = (Example.service.GenerateToken Ref.lib 2000 [1] "c1" "s1").2.1 := by
  refine ⟨rfl, rfl, ?_, ?_, GenerateToken_identity_constant _ _ _ _ _ _ _ _⟩
  · rw [GenerateToken_of_verified Ref.lib Example.service 1000 [] "c1" "s1" "A"
      (verifyUser_ok Example.service "c1" "s1" "A" (by decide) (by decide) (by decide))]
  · rw [GenerateToken_of_verified Ref.lib Example.service 2000 [1] "c1" "s1" "A"
      (verifyUser_ok Example.service "c1" "s1" "A" (by decide) (by decide) (by decide))]

/-- C24, amended: of the two claim sets `GenerateToken` signs, the access claims carry a
non-empty id and the expiry of the call; the identity claims carry neither an id nor an
expiry, and the identity token returned for a client is the same in every call. -/
theorem C24_only_access_claims_are_fresh (L : Lib) (s : Service) (now1 now2 : Int)
    (random1 random2 : Bytes) (clientID clientSecret appName : String) :
    (accessClaims now1 random1).Id ≠ "" ∧
    (accessClaims now1 random1).ExpiresAt = now1 + 3600 ∧
    (identityClaims appName).Id = "" ∧ (identityClaims appName).ExpiresAt = 0 ∧
    (s.GenerateToken L now1 random1 clientID clientSecret).2.1
      = (s.GenerateToken L now2 random2 clientID clientSecret).2.1 :=
  ⟨uuid_String_ne_empty _, rfl, rfl, rfl, GenerateToken_identity_constant _ _ _ _ _ _ _ _⟩

/-- C25: an identity token never expires: after a successful `GenerateToken`, `ParseToken`
on a service with the same secret accepts the identity token at every clock instant and
returns the registered app name; the expiry check passes whenever the expiresAt claim is
absent. -/
theorem C25_identity_token_never_expires (L : Lib) (hL : L.Lawful) (s s2 : Service)
    (now : Int) (random : Bytes) (clientID clientSecret : String)
    (hsec : s2.secret = s.secret)
    (hok : (s.GenerateToken L now random clientID clientSecret).2.2.2 = none) :
    (∃ entry, s.IAM.lookup clientID = some entry ∧ ∀ later : Int,
      s2.ParseToken L later (s.GenerateToken L now random clientID clientSecret).2.1
        = (entry.AppName, none)) ∧
    ∀ instant : Int, jwt.verifyExp 0 instant false = true := by
  refine ⟨?_, fun _ => rfl⟩
  rcases verifyUser_cases s clientID clientSecret with ⟨entry, _, _, h3, _, h5⟩ | ⟨_, msg, hm⟩
  · refine ⟨entry, h3, fun later => ?_⟩
    rw [GenerateToken_of_verified L s now random clientID clientSecret _ h5, ← hsec]
    have hs := signedClaims_SignedString L hL .SHA512 (identityClaims entry.AppName) s2.secret
    rw [ParseToken_of_signedClaims L s2 later _ _ hs, Valid_identityClaims]
    simp [identityClaims]
  · rw [GenerateToken_of_rejected L s now random clientID clientSecret msg hm] at hok
    simp at hok

theorem C25_witness :
    (∃ entry, Example.service.IAM.lookup "c1" = some entry ∧ ∀ later : Int,
      Example.service.ParseToken Ref.lib later
        (Example.service.GenerateToken Ref.lib 1000 [] "c1" "s1").2.1
        = (entry.AppName, none)) ∧
    ∀ instant : Int, jwt.verifyExp 0 instant false = true :=
  C25_identity_token_never_expires Ref.lib Ref.lawful Example.service Example.service 1000 []
    "c1" "s1" rfl
    (by rw [GenerateToken_of_verified Ref.lib Example.service 1000 [] "c1" "s1" "A"
      (verifyUser_ok Example.service "c1" "s1" "A" (by decide) (by decide) (by decide))])

/-- C26: every rejection of `GenerateToken` carries the message "user not authorized to use
iam service: " followed by the first cause that applies, in the order empty id, empty
secret, unknown id, mismatched secret; the four messages differ from one another and a
rejection has no other message. -/
theorem C26_rejection_messages (L : Lib) (s : Service) (now : Int) (random : Bytes)
    (clientID clientSecret : String) :
    (clientID = "" → s.GenerateToken L now random clientID clientSecret
      = ("", "", 0, some "user not authorized to use iam service: no client Id provided")) ∧
    (clientID ≠ "" → clientSecret = "" → s.GenerateToken L now random clientID clientSecret
      = ("", "", 0, some "user not authorized to use iam service: no client secret provided")) ∧
    (clientID ≠ "" → clientSecret ≠ "" → s.IAM.lookup clientID = none →
      s.GenerateToken L now random clientID clientSecret
      = ("", "", 0, some "user not authorized to use iam service: client id does not exist")) ∧
    (clientID ≠ "" → clientSecret ≠ "" →
      (∃ entry, s.IAM.lookup clientID = some entry ∧ entry.ClientSecret ≠ clientSecret) →
      s.GenerateToken L now random clientID clientSecret
      = ("", "", 0,
        some "user not authorized to use iam service: client secret does not match")) ∧
    ((s.GenerateToken L now random clientID clientSecret).2.2.2 ≠ none →
      (s.GenerateToken L now random clientID clientSecret).2.2.2 ∈
        [some "user not authorized to use iam service: no client Id provided",
         some "user not authorized to use iam service: no client secret provided",
         some "user not authorized to use iam service: client id does not exist",
         some "user not authorized to use iam service: client secret does not match"]) ∧
    ["user not authorized to use iam service: no client Id provided",
     "user not authorized to use iam service: no client secret provided",
     "user not authorized to use iam service: client id does not exist",
     "user not authorized to use iam service: client secret does not match"].Nodup := by
  have e1 : clientID = "" → s.verifyUser clientID clientSecret
      = ("", some "no client Id provided") := by
    intro h; simp [Service.verifyUser, h]
  have e2 : clientID ≠ "" → clientSecret = "" → s.verifyUser clientID clientSecret
      = ("", some "no client secret provided") := by
    intro h1 h2
    have : ¬ clientID.length = 0 := fun h => h1 ((length_eq_zero_iff _).1 h)
    simp [Service.verifyUser, this, h2]
  have e3 : clientID ≠ "" → clientSecret ≠ "" → s.IAM.lookup clientID = none →
      s.verifyUser clientID clientSecret = ("", some "client id does not exist") := by
    intro h1 h2 h3
    have a : ¬ clientID.length = 0 := fun h => h1 ((length_eq_zero_iff _).1 h)
    have b : ¬ clientSecret.length = 0 := fun h => h2 ((length_eq_zero_iff _).1 h)
    simp [Service.verifyUser, a, b, h3]
  have e4 : clientID ≠ "" → clientSecret ≠ "" →
      (∃ entry, s.IAM.lookup clientID = some entry ∧ entry.ClientSecret ≠ clientSecret) →
      s.verifyUser clientID clientSecret = ("", some "client secret does not match") := by
    intro h1 h2 ⟨entry, h3, h4⟩
    have a : ¬ clientID.length = 0 := fun h => h1 ((length_eq_zero_iff _).1 h)
    have b : ¬ clientSecret.length = 0 := fun h => h2 ((length_eq_zero_iff _).1 h)
    simp [Service.verifyUser, a, b, h3, h4]
  have g := GenerateToken_of_rejected L s now random clientID clientSecret
  refine ⟨fun h => g _ (e1 h), fun h1 h2 => g _ (e2 h1 h2), fun h1 h2 h3 => g _ (e3 h1 h2 h3),
    fun h1 h2 h3 => g _ (e4 h1 h2 h3), ?_, by decide⟩
  intro hne
  by_cases h1 : clientID = ""
  · rw [g _ (e1 h1)]; simp
  · by_cases h2 : clientSecret = ""
    · rw [g _ (e2 h1 h2)]; simp
    · cases h3 : s.IAM.lookup clientID with
      | none => rw [g _ (e3 h1 h2 h3)]; simp
      | some entry =>
        by_cases h4 : entry.ClientSecret = clientSecret
        · have hv : s.verifyUser clientID clientSecret = (entry.AppName, none) := by
            cases entry
            simp only at h4
            subst h4
            exact verifyUser_ok s clientID _ _ h1 h2 h3
          rw [GenerateToken_of_verified L s now random clientID clientSecret _ hv] at hne
          simp at hne
        · rw [g _ (e4 h1 h2 ⟨entry, h3, h4⟩)]; simp

/-- C27: the health handler answers 200 with the health body when the status is Alive, 500
with the body when it is Degraded, 503 with the body when it is Unavailable, and 500
without body when the service returns an error; after `Service.Health` an empty registry
gives 503, a non-empty registry with an empty secret 500 and every other service 200. -/
theorem C27_health_handler_status_codes (s : Service) :
    (∀ (h : health.Health) (err : String),
      api.Client.Health (h, some err) = ⟨500, none⟩) ∧
    (∀ detail : String, api.Client.Health (⟨"Alive", detail⟩, none)
      = ⟨200, some ⟨"Alive", detail⟩⟩) ∧
    (∀ detail : String, api.Client.Health (⟨"Degraded", detail⟩, none)
      = ⟨500, some ⟨"Degraded", detail⟩⟩) ∧
    (∀ detail : String, api.Client.Health (⟨"Unavailable", detail⟩, none)
      = ⟨503, some ⟨"Unavailable", detail⟩⟩) ∧
    (s.IAM = [] → (api.Client.Health s.Health).Code = 503) ∧
    (s.IAM ≠ [] → s.secret = [] → (api.Client.Health s.Health).Code = 500) ∧
    (s.IAM ≠ [] → s.secret ≠ [] → (api.Client.Health s.Health).Code = 200) := by
  refine ⟨fun _ _ => rfl, fun _ => rfl, fun _ => rfl, fun _ => rfl, ?_, ?_, ?_⟩
  · intro h
    simp [Service.Health, h]
    rfl
  · intro h1 h2
    have h1b : ¬ s.IAM.length = 0 := fun h => h1 (List.length_eq_zero.1 h)
    simp [Service.Health, h1b, h2]
    rfl
  · intro h1 h2
    have h1b : ¬ s.IAM.length = 0 := fun h => h1 (List.length_eq_zero.1 h)
    have h2b : ¬ s.secret.length = 0 := fun h => h2 (List.length_eq_zero.1 h)
    simp [Service.Health, h1b, h2b]
    rfl

theorem ParseToken_SignedString_valid (L : Lib) (hL : L.Lawful) (s : Service) (now : Int)
    (h : HashAlg) (c : StandardClaims) (hv : jwt.Valid L c now = none) :
    s.ParseToken L now (jwt.SignedString L h c s.secret).1 =
      if c.Issuer ≠ issuer then ("", some invalidIssuer) else (c.Subject, none) := by
  rw [ParseToken_of_signedClaims L s now _ c (signedClaims_SignedString L hL h c s.secret), hv]

/-- C28, the counterexample: a token signed with HS256 under the secret of the service, with
the issuer "iam-proxy", without expiry and with a not-before instant (100) after the clock
instant (10) is rejected, its subject is not returned. -/
theorem C28_counterexample :
    jwt.signedClaims Ref.lib Example.service.secret Example.notYetValidToken
      = some Example.notYetValid ∧
    Example.notYetValid.Issuer = "iam-proxy" ∧
    jwt.verifyExp Example.notYetValid.ExpiresAt 10 false = true ∧
    Example.service.ParseToken Ref.lib 10 Example.notYetValidToken
      = ("", some "could not parse token: token is not valid yet") ∧
    Example.service.ParseToken Ref.lib 10 Example.notYetValidToken
      ≠ (Example.notYetValid.Subject, none) := by
  have hs : jwt.signedClaims Ref.lib Example.service.secret Example.notYetValidToken
      = some Example.notYetValid :=
    signedClaims_SignedString Ref.lib Ref.lawful .SHA256 _ _
  have hp : Example.service.ParseToken Ref.lib 10 Example.notYetValidToken
      = ("", some "could not parse token: token is not valid yet") := by
    rw [ParseToken_of_signedClaims Ref.lib Example.service 10 _ _ hs]
    rfl
  refine ⟨hs, rfl, by decide, hp, ?_⟩
  rw [hp]
  decide

/-- C28, amended: `ParseToken` accepts a token signed under the secret of the service with
any HMAC method, HS256 included: when the token is not expired and its issuedAt and
notBefore claims are absent or not later than the clock instant, it passes the method and
signature checks, and `ParseToken` returns its subject without error if its issuer is
"iam-proxy" and the error "issuer is invalid" otherwise. -/
theorem C28_any_HMAC_method_accepted (L : Lib) (hL : L.Lawful) (s : Service) (now : Int)
    (h : HashAlg) (c : StandardClaims)
    (hexp : c.ExpiresAt = 0 ∨ now ≤ c.ExpiresAt)
    (hiat : c.IssuedAt = 0 ∨ c.IssuedAt ≤ now) (hnbf : c.NotBefore = 0 ∨ c.NotBefore ≤ now) :
    (c.Issuer = "iam-proxy" →
      s.ParseToken L now (jwt.SignedString L h c s.secret).1 = (c.Subject, none)) ∧
    (c.Issuer ≠ "iam-proxy" →
      s.ParseToken L now (jwt.SignedString L h c s.secret).1
        = ("", some "issuer is invalid")) := by
  have h1 : jwt.verifyExp c.ExpiresAt now false = true := by
    unfold jwt.verifyExp
    rcases hexp with e | e
    · simp [e]
    · split
      · rfl
      · simpa using e
  have h2 : jwt.verifyIat c.IssuedAt now false = true := by
    unfold jwt.verifyIat
    rcases hiat with e | e
    · simp [e]
    · split
      · rfl
      · simpa using e
  have h3 : jwt.verifyNbf c.NotBefore now false = true := by
    unfold jwt.verifyNbf
    rcases hnbf with e | e
    · simp [e]
    · split
      · rfl
      · simpa using e
  have hp := ParseToken_SignedString_valid L hL s now h c (jwt.Valid_of_verified L c now h1 h2 h3)
  constructor
  · intro hi
    have : ¬ c.Issuer ≠ issuer := fun hn => hn hi
    rw [hp, if_neg this]
  · intro hi
    have : c.Issuer ≠ issuer := hi
    rw [hp, if_pos this]
    rfl

theorem C28_witness :
    (Example.current.Issuer = "iam-proxy" →
      Example.service.ParseToken Ref.lib 10
        (jwt.SignedString Ref.lib .SHA256 Example.current Example.service.secret).1
        = (Example.current.Subject, none)) ∧
    (Example.current.Issuer ≠ "iam-proxy" →
      Example.service.ParseToken Ref.lib 10
        (jwt.SignedString Ref.lib .SHA256 Example.current Example.service.secret).1
        = ("", some "issuer is invalid")) :=
  C28_any_HMAC_method_accepted Ref.lib Ref.lawful Example.service 10 .SHA256 Example.current
    (by decide) (by decide) (by decide)

/-- C29: `extractToken` never compares the leading word of the header value with the header
name: when the value is a word `w`, one space and a token `t`, both without spaces, it
returns `t` and no error, whatever `w` is. -/
theorem C29_leading_word_unchecked (canon : String → String) (r : clienthttp.Request)
    (key w t : String) (hw : ' ' ∉ w.data) (ht : ' ' ∉ t.data)
    (hval : clienthttp.Header.Get canon r.Header key = w ++ " " ++ t) :
    clienthttp.extractToken canon r key = (t, none) := by
  have hl : ¬ (w ++ " " ++ t).length = 0 := by
    have h1 : " ".length = 1 := rfl
    simp [String.length_append, h1]
  unfold clienthttp.extractToken
  simp only [hval, hl, if_false, splitSpace_two w t hw ht]
  simp

theorem C29_witness :
    clienthttp.ExtractAccessToken id Example.bearerRequest = ("token", none) :=
  C29_leading_word_unchecked id Example.bearerRequest "Authorization" "Bearer" "token"
    (by decide) (by decide) (by decide)

/-- C30: a registry entry whose client id or stored client secret is the empty string can
never be authenticated: `GenerateToken` fails for its client id with every supplied
secret, although the entry makes the registry non-empty, so that `Health` does not report
Unavailable. -/
theorem C30_empty_credentials_never_authenticate (L : Lib) (s : Service) (now : Int)
    (random : Bytes) (clientID : String) (entry : Secret)
    (hentry : s.IAM.lookup clientID = some entry)
    (hempty : clientID = "" ∨ entry.ClientSecret = "") :
    (∀ supplied : String, ∃ msg,
      s.GenerateToken L now random clientID supplied = ("", "", 0, some msg)) ∧
    s.IAM ≠ [] ∧ s.Health.1.Status ≠ "Unavailable" := by
  have hne : s.IAM ≠ [] := by
    intro h
    rw [h] at hentry
    cases hentry
  refine ⟨?_, hne, ?_⟩
  · intro supplied
    rcases verifyUser_cases s clientID supplied with ⟨e, h1, h2, h3, h4, _⟩ | ⟨_, msg, hm⟩
    · rw [hentry] at h3
      cases h3
      rcases hempty with h | h
      · exact absurd h h1
      · exact absurd (h4.symm.trans h) h2
    · exact ⟨_, GenerateToken_of_rejected L s now random clientID supplied msg hm⟩
  · have h1b : ¬ s.IAM.length = 0 := fun h => hne (List.length_eq_zero.1 h)
    unfold Service.Health
    simp only [h1b, if_false]
    split <;> decide

theorem C30_witness :
    (∀ supplied : String, ∃ msg,
      Service.GenerateToken Ref.lib ⟨[("c0", ⟨"", "A"⟩)], [107]⟩ 1000 [] "c0" supplied
        = ("", "", 0, some msg)) ∧
    (⟨[("c0", ⟨"", "A"⟩)], [107]⟩ : Service).IAM ≠ [] ∧
    (Service.Health ⟨[("c0", ⟨"", "A"⟩)], [107]⟩).1.Status ≠ "Unavailable" :=
  C30_empty_credentials_never_authenticate Ref.lib ⟨[("c0", ⟨"", "A"⟩)], [107]⟩ 1000 [] "c0"
    ⟨"", "A"⟩ (by decide) (Or.inr rfl)

end IamProxy
